import Mathlib

/-
Verification of the Revenue Metrics and Cohort Engine of the
customer-analysis repository (src/src/App.tsx), as a shallow embedding.

Modelling conventions:
* JavaScript numbers are embedded as rationals (ℚ); the claims under
  scrutiny are algebraic identities that hold exactly over ℚ.
* A spreadsheet cell holds a string, a number, or is absent
  (JavaScript undefined); this is the type CellValue.
* Fallible or throwing code paths return Option.
* parseFloat is modelled by parseFloatQ, a faithful decimal parser
  (sign, integer part, fraction, exponent, longest valid prefix,
  none for NaN).  The special JavaScript input "Infinity" is not a
  rational and is modelled as a failed parse; no claim exercises it.
* A JavaScript property access with an undefined key (for example
  dateColumns[i - 3] when i < 3) is modelled as a missing key, which
  assumes no customer column is literally named "undefined".
-/

set_option maxRecDepth 40000
set_option synthInstance.maxSize 4000

namespace CustomerAnalysis

/-- A raw spreadsheet cell value: a number, a string, or absent
(JavaScript undefined). -/
inductive CellValue where
  | num (q : ℚ)
  | str (s : String)
  | undef
deriving DecidableEq

/-! ### Decimal digits and number formatting (model of JS String/Number) -/

/-- The decimal digit character for d (0-9); inputs above 9 clamp to the
character for 9 and are never reached. -/
def digitChar (d : Nat) : Char :=
  match d with
  | 0 => '0'
  | 1 => '1'
  | 2 => '2'
  | 3 => '3'
  | 4 => '4'
  | 5 => '5'
  | 6 => '6'
  | 7 => '7'
  | 8 => '8'
  | _ => '9'

/-- Numeric value of a digit character. -/
def digitVal (c : Char) : Nat := c.toNat - 48

/-- Reads a digit string as a natural number (most significant first). -/
def digitsToNat (l : List Char) : Nat :=
  l.foldl (fun a c => a * 10 + digitVal c) 0

/-- Fuel-driven digit printer; the fuel only forces structural recursion
and is irrelevant once it exceeds the number (natToDigitsAux_stable). -/
def natToDigitsAux (fuel n : Nat) : List Char :=
  match fuel with
  | 0 => []
  | fuel + 1 =>
    if n < 10 then [digitChar n]
    else natToDigitsAux fuel (n / 10) ++ [digitChar (n % 10)]

/-- Decimal digits of a natural number, the model of JavaScript
String(n) for a nonnegative integer. -/
def natToDigits (n : Nat) : List Char := natToDigitsAux (n + 1) n

/-- Decimal digits of an integer, the model of JavaScript String(n). -/
def intToDigits (n : Int) : List Char :=
  if n < 0 then '-' :: natToDigits (-n).toNat else natToDigits n.toNat

/-- Model of JavaScript String(m).padStart(2, "0") for a natural m. -/
def pad2digits (m : Nat) : List Char :=
  if m < 10 then '0' :: natToDigits m else natToDigits m

/-- Model of String(m).padStart(2, "0") for an integer m. -/
def intPad2 (n : Int) : List Char :=
  let d := intToDigits n
  if d.length < 2 then '0' :: d else d

/-- Model of JavaScript Number(s) restricted to the engine: a string of
decimal digits maps to its value (Number("") is 0); any other string is
NaN in JavaScript, modelled as 0 and reached only off the regex-guarded
paths. -/
def jsNumOfChars (l : List Char) : Nat :=
  if l.all Char.isDigit then digitsToNat l else 0

/-! ### Splitting on a dash (model of s.split("-")) -/

def splitOnDashAux : List Char → List Char → List (List Char)
  | [], acc => [acc.reverse]
  | c :: rest, acc =>
    if c = '-' then acc.reverse :: splitOnDashAux rest []
    else splitOnDashAux rest (c :: acc)

/-- Model of JavaScript s.split("-"). -/
def splitOnDash (l : List Char) : List (List Char) := splitOnDashAux l []

/-- Model of date.split("-").map(Number) destructured to [year, month]. -/
def parseYM (s : String) : Nat × Nat :=
  match splitOnDash s.data with
  | y :: m :: _ => (jsNumOfChars y, jsNumOfChars m)
  | [y] => (jsNumOfChars y, 0)
  | [] => (0, 0)

/-- The month key template literal of the source: year, a dash, and the
two-digit padded month. -/
def ymKey (y m : Nat) : String :=
  String.mk (natToDigits y ++ '-' :: pad2digits m)

/-- The month key at linear month index n (year n / 12, month n % 12 + 1);
convenience for stating axis contiguity. -/
def fmtYM (n : Nat) : String := ymKey (n / 12) (n % 12 + 1)

/-! ### The Amount Normalizer (cleanCurrencyString, App.tsx 366-381) -/

/-- Model of JavaScript s.trim(): drop whitespace from both ends. -/
def jsTrim (s : String) : String :=
  String.mk (((s.data.dropWhile Char.isWhitespace).reverse.dropWhile
    Char.isWhitespace).reverse)

/-- Model of the regex replace /[\s$,]/g: drop whitespace, dollar signs
and commas. -/
def stripCurrency (s : String) : String :=
  String.mk (s.data.filter (fun c => !(c.isWhitespace || c = '$' || c = ',')))

/-- Consumes an optional leading sign; true means negative. -/
def parseSign (l : List Char) : Bool × List Char :=
  match l with
  | [] => (false, [])
  | c :: rest =>
    if c = '-' then (true, rest)
    else if c = '+' then (false, rest)
    else (false, c :: rest)

/-- Exponent tail of a decimal literal: optional sign then digits; an
empty digit run means the exponent marker is not part of the number. -/
def parseExpPart (l : List Char) : Bool × List Char :=
  let sg := parseSign l
  let ds := sg.2.takeWhile Char.isDigit
  if ds.isEmpty then (false, []) else (sg.1, ds)

/-- The fraction-part digits after the integer part (empty without a
leading dot). -/
def fracDigits (l2 : List Char) : List Char :=
  match l2 with
  | '.' :: rest => rest.takeWhile Char.isDigit
  | _ => []

/-- What remains after the fraction part. -/
def afterFrac (l2 : List Char) : List Char :=
  match l2 with
  | '.' :: rest => rest.dropWhile Char.isDigit
  | _ => l2

/-- The exponent of a decimal literal (sign flag and digits) read off the
tail after the mantissa. -/
def expOf (l3 : List Char) : Bool × List Char :=
  match l3 with
  | 'e' :: rest => parseExpPart rest
  | 'E' :: rest => parseExpPart rest
  | _ => (false, [])

/-- Model of JavaScript parseFloat over the rationals: longest valid
prefix of sign, digits, optional fraction, optional exponent; none for
NaN (no leading number). -/
def parseFloatQ (s : String) : Option ℚ :=
  let sg := parseSign s.data
  let ip := sg.2.takeWhile Char.isDigit
  let l2 := sg.2.dropWhile Char.isDigit
  let fp := fracDigits l2
  let l3 := afterFrac l2
  if ip.isEmpty && fp.isEmpty then none
  else
    let mant : ℚ := (digitsToNat ip : ℚ) + (digitsToNat fp : ℚ) / (10 : ℚ) ^ fp.length
    let ep := expOf l3
    let e := digitsToNat ep.2
    let mag := if ep.1 then mant / (10 : ℚ) ^ e else mant * (10 : ℚ) ^ e
    some (if sg.1 then -mag else mag)

/-- The Amount Normalizer, translated from cleanCurrencyString
(App.tsx 366-381): numbers pass through, absent and empty values give 0,
the trimmed sentinels "-", "$-", "N/A" give 0, and otherwise the string
is stripped of whitespace, "$" and "," and parsed as a decimal, with 0
on a failed parse. -/
def cleanCurrencyString (value : CellValue) : ℚ :=
  match value with
  | .num q => q
  | .undef => 0
  | .str s =>
    if s = "" then 0
    else
      let t := jsTrim s
      if t = "-" || t = "$-" || t = "N/A" then 0
      else
        match parseFloatQ (stripCurrency s) with
        | none => 0
        | some q => q

/-! ### The revenue matrix (CustomerData rows) -/

/-- One input row: the Customer identity cell and the remaining columns
as an ordered key-value record (the JS object of dynamic columns). -/
structure CustomerData where
  name : String
  cells : List (String × CellValue)
deriving DecidableEq

/-- JS property access row[key]: the first binding for the key, or
undefined when the key is absent. -/
def getCell (c : CustomerData) (key : String) : CellValue :=
  match c.cells.find? (fun kv => kv.1 == key) with
  | some kv => kv.2
  | none => CellValue.undef

/-- Property access through a JS index expression that may itself be
undefined (dateColumns[i] out of range). -/
def getCellOpt (c : CustomerData) (key : Option String) : CellValue :=
  match key with
  | some k => getCell c k
  | none => CellValue.undef

/-- JS truthiness on a cell value (undefined, "" and 0 are falsy). -/
def jsFalsy : CellValue → Bool
  | .undef => true
  | .str s => s == ""
  | .num q => q == 0

/-- Model of the JS expression v || d. -/
def jsOr (v d : CellValue) : CellValue := if jsFalsy v then d else v

/-- Model of the JS expression v || d on an optional string result
(find() fallbacks such as startDate and endDate). -/
def jsOrString (v : Option String) (d : String) : String :=
  match v with
  | some s => if s == "" then d else s
  | none => d

/-- The row filter of calculateMetrics (App.tsx 387-391): keep rows with
a truthy Customer that is not "Totals" and not whitespace-only. -/
def rowFilter (c : CustomerData) : Bool :=
  !(c.name == "") && !(c.name == "Totals") && !(jsTrim c.name == "")

/-- Model of the column regex /^\d{4}-\d{2}$/ (App.tsx 394). -/
def isDateKey (s : String) : Bool :=
  match s.data with
  | [a, b, c, d, dash, e, f] =>
    a.isDigit && b.isDigit && c.isDigit && d.isDigit &&
      (dash == '-') && e.isDigit && f.isDigit
  | _ => false

/-- Stable insertion of a string into an ascending list, equal keys kept
in first-seen order. -/
def insertStr (a : String) : List String → List String
  | [] => [a]
  | b :: bs => if a < b then a :: b :: bs else b :: insertStr a bs

/-- Model of JavaScript Array.prototype.sort() on strings (ascending
code-unit order, stable). -/
def sortStrings (l : List String) : List String :=
  l.foldl (fun acc a => insertStr a acc) []

/-- JS array indexing with an Int index: negative or out-of-range gives
undefined. -/
def getIdx (l : List String) (i : Int) : Option String :=
  if i < 0 then none else l.get? i.toNat

/-! ### Monthly metrics (calculateMetrics, App.tsx 383-482) -/

/-- One MetricsData record.  The TS interface declares growthRate, nrr
and netNewRevenue as plain numbers and the computation always assigns a
number to them; they are embedded as Option so that presence of a value
(versus JS undefined) is itself expressible, and the computation always
produces some value.  The quarterly fields are optional in the TS
interface and genuinely absent off quarter ends. -/
structure MetricsData where
  date : String
  mrr : ℚ
  arr : ℚ
  growthRate : Option ℚ
  nrr : Option ℚ
  netNewRevenue : Option ℚ
  acv : ℚ
  activeCustomers : Nat
  quarterlyMrr : Option ℚ
  quarterlyArr : Option ℚ
  quarterlyGrowth : Option ℚ
  quarterlyNrr : Option ℚ
  quarterlyNetNew : Option ℚ
  quarterlyAcv : Option ℚ
  quarterlyActiveCustomers : Option Nat
  formattedQuarter : Option String
deriving DecidableEq

/-- The Set-of-names NRR block of the source, used verbatim at
App.tsx 439-462 (previous month) and App.tsx 514-546 (previous
quarter): collect the names of the customers with positive revenue at
the reference key, then sum the reference and current revenue of the
rows whose name is in that set, and take the ratio, defaulting to 100 on
a zero reference sum. -/
def codeNrr (customers : List CustomerData) (prevKey : Option String)
    (curKey : String) : ℚ :=
  let previousMonthCustomers :=
    (customers.filter
      (fun c => decide (cleanCurrencyString (getCellOpt c prevKey) > 0))).map
      (fun c => c.name)
  let previousRevenue :=
    (customers.filter (fun c => previousMonthCustomers.contains c.name)).foldl
      (fun sum c => sum + cleanCurrencyString (getCellOpt c prevKey)) 0
  let currentRevenue :=
    (customers.filter (fun c => previousMonthCustomers.contains c.name)).foldl
      (fun sum c => sum + cleanCurrencyString (getCell c curKey)) 0
  if previousRevenue = 0 then 100 else (currentRevenue / previousRevenue) * 100

/-- The body of dateColumns.map((date, index) => ...) (App.tsx 398-481),
one monthly metric record. -/
def monthlyMetric (customers : List CustomerData) (dateColumns : List String)
    (index : Nat) (date : String) : MetricsData :=
  let mrr := customers.foldl
    (fun sum c => sum + cleanCurrencyString (getCell c date)) 0
  let arr := mrr * 12
  let netNewRevenue : ℚ :=
    if index > 0 then
      let previousDate := getIdx dateColumns ((index : Int) - 1)
      let mrrChanges := customers.map (fun c =>
        let currentMrr := cleanCurrencyString (getCell c date)
        let previousMrr := cleanCurrencyString (getCellOpt c previousDate)
        let mrrChange := currentMrr - previousMrr
        if mrrChange > 0 then mrrChange else 0)
      (mrrChanges.foldl (fun sum change => sum + change) 0) * 12
    else 0
  let growthRate : ℚ :=
    if index > 0 then
      let previousARR := customers.foldl (fun sum c =>
        sum + cleanCurrencyString
          (getCellOpt c (getIdx dateColumns ((index : Int) - 3))) * 12) 0
      if previousARR = 0 then 0 else ((arr - previousARR) / previousARR) * 100
    else 0
  let nrr : ℚ :=
    if index > 0 then
      codeNrr customers (getIdx dateColumns ((index : Int) - 1)) date
    else 0
  let activeCustomers :=
    (customers.filter (fun c => decide (cleanCurrencyString (getCell c date) > 0))).length
  let acv := if activeCustomers = 0 then 0 else arr / (activeCustomers : ℚ)
  { date := date, mrr := mrr, arr := arr, growthRate := some growthRate,
    nrr := some nrr, netNewRevenue := some netNewRevenue, acv := acv,
    activeCustomers := activeCustomers, quarterlyMrr := none,
    quarterlyArr := none, quarterlyGrowth := none, quarterlyNrr := none,
    quarterlyNetNew := none, quarterlyAcv := none,
    quarterlyActiveCustomers := none, formattedQuarter := none }

/-! ### Quarterly rollup (App.tsx 485-568) -/

/-- The previous quarter date template of App.tsx 497-500: month minus
three, borrowing a year when the month underflows. -/
def prevQuarterDateOf (year month : Nat) : String :=
  let prevQuarterMonth : Int := (month : Int) - 3
  let prevQuarterYear : Int :=
    if prevQuarterMonth < 1 then (year : Int) - 1 else (year : Int)
  let adjustedPrevMonth : Int :=
    if prevQuarterMonth < 1 then prevQuarterMonth + 12 else prevQuarterMonth
  String.mk (intToDigits prevQuarterYear ++ '-' :: intPad2 adjustedPrevMonth)

/-- The previous-quarter baseline mrr of App.tsx 502-505: the metric
found by date in the monthly series, with 0 when absent. -/
def prevQMrr (base : List MetricsData) (d : String) : ℚ :=
  match base.find? (fun mm => mm.date == d) with
  | some mm => mm.mrr
  | none => 0

/-- The quarterly enrichment of one metric (the body of the forEach at
App.tsx 485-568); base is the monthly series the lookup runs over. -/
def addQuarterly (customers : List CustomerData) (base : List MetricsData)
    (metric : MetricsData) : MetricsData :=
  let ym := parseYM metric.date
  let year := ym.1
  let month := ym.2
  let monthIndex : Int := (month : Int) - 1
  let quarter : Int := monthIndex.fdiv 3 + 1
  if month % 3 = 0 then
    let quarterlyMrr := metric.mrr
    let quarterlyArr := metric.arr
    let previousQuarterDate := prevQuarterDateOf year month
    let previousQuarterlyMrr := prevQMrr base previousQuarterDate
    let quarterlyGrowth :=
      if previousQuarterlyMrr = 0 then 0
      else ((quarterlyMrr - previousQuarterlyMrr) / previousQuarterlyMrr) * 100
    let quarterlyNrr := codeNrr customers (some previousQuarterDate) metric.date
    let quarterlyNetNew := (quarterlyMrr - previousQuarterlyMrr) * 12
    let quarterlyActiveCustomers :=
      (customers.filter (fun c =>
        decide (cleanCurrencyString (getCell c metric.date) > 0))).length
    let quarterlyAcv :=
      if quarterlyActiveCustomers = 0 then 0
      else quarterlyArr / (quarterlyActiveCustomers : ℚ)
    { metric with
      quarterlyMrr := some quarterlyMrr
      quarterlyArr := some quarterlyArr
      quarterlyGrowth := some quarterlyGrowth
      quarterlyNrr := some quarterlyNrr
      quarterlyNetNew := some quarterlyNetNew
      quarterlyAcv := some quarterlyAcv
      formattedQuarter := some (String.mk
        ('Q' :: intToDigits quarter ++ ' ' :: '\x27' :: (natToDigits year).drop 2))
      quarterlyActiveCustomers := some quarterlyActiveCustomers }
  else metric

/-! ### Customer summaries (App.tsx 573-614) -/

structure CustomerSummary where
  id : String
  customer : String
  startDate : String
  endDate : String
  currentMrr : ℚ
  lastQuarterMrr : ℚ
  arr : ℚ
  quarterlyChange : ℚ
  status : String
  ltv : ℚ
deriving DecidableEq

/-- One customer summary (the body of customerData.map at
App.tsx 576-614). -/
def mkSummary (dateColumns : List String)
    (lastMonth lastQuarterMonth : Option String) (c : CustomerData) :
    CustomerSummary :=
  let currentMrr := cleanCurrencyString (getCellOpt c lastMonth)
  let lastQuarterMrr := cleanCurrencyString (getCellOpt c lastQuarterMonth)
  let arr := currentMrr * 12
  let quarterlyChange :=
    if lastQuarterMrr = 0 then 0
    else ((currentMrr - lastQuarterMrr) / lastQuarterMrr) * 100
  let startDate := jsOrString
    (dateColumns.find? (fun d => decide (cleanCurrencyString (getCell c d) > 0)))
    "N/A"
  let endDate :=
    if currentMrr > 0 then "--"
    else jsOrString
      (dateColumns.reverse.find?
        (fun d => decide (cleanCurrencyString (getCell c d) > 0)))
      "N/A"
  let ltv := dateColumns.foldl
    (fun sum d => sum + cleanCurrencyString (jsOr (getCell c d) (.str "0"))) 0
  { id := c.name, customer := c.name, startDate := startDate,
    endDate := endDate, currentMrr := currentMrr,
    lastQuarterMrr := lastQuarterMrr, arr := arr,
    quarterlyChange := quarterlyChange,
    status := if currentMrr > 0 then "Active" else "Churned", ltv := ltv }

/-! ### Cohort analysis (calculateCohortData, App.tsx 624-691) -/

structure CohortPeriod where
  retained : Nat
  revenue : ℚ
  retentionRate : ℚ
  revenueRate : ℚ
deriving DecidableEq

structure CohortData where
  cohort : String
  initialCustomers : Nat
  initialRevenue : ℚ
  periods : List CohortPeriod
deriving DecidableEq

/-- Adds a customer to the group of the given cohort key, creating the
key at the end on first use (JS object keys keep insertion order). -/
def insertGroup (groups : List (String × List CustomerData)) (k : String)
    (c : CustomerData) : List (String × List CustomerData) :=
  match groups with
  | [] => [(k, [c])]
  | (k2, cs) :: rest =>
    if k2 == k then (k2, cs ++ [c]) :: rest
    else (k2, cs) :: insertGroup rest k c

/-- The cohort key a row lands under: its first period-axis month with
nonzero normalized revenue, reparsed and reformatted (App.tsx 627-631). -/
def cohortKeyOf (dateColumns : List String) (c : CustomerData) : Option String :=
  match dateColumns.find? (fun d => decide (cleanCurrencyString (getCell c d) > 0)) with
  | some firstRevenueDate =>
    let ym := parseYM firstRevenueDate
    some (ymKey ym.1 ym.2)
  | none => none

/-- One step of the cohort-building reduce (App.tsx 625-638): a row
with no positive-revenue month is skipped, the others join the bucket
of their cohort key. -/
def cohortStep (dateColumns : List String)
    (groups : List (String × List CustomerData)) (c : CustomerData) :
    List (String × List CustomerData) :=
  match cohortKeyOf dateColumns c with
  | none => groups
  | some k => insertGroup groups k c

/-- The reduce at App.tsx 625-638 building the cohort groups.  Rows with
no revenue in any period-axis month are skipped. -/
def buildCohortGroups (data : List CustomerData) (dateColumns : List String) :
    List (String × List CustomerData) :=
  data.foldl (cohortStep dateColumns) []

/-- Model of Array.from with a length that may be nonpositive. -/
def jsRange (len : Int) : List Nat :=
  if len ≤ 0 then [] else List.range len.toNat

/-- The period key of App.tsx 665-666: new Date(cohortYear,
cohortMonth - 1 + index) rendered as YYYY-MM.  The Date constructor
maps a year argument of 0 to 99 to 1900 to 1999 and floor-normalizes an
out-of-range month into the year. -/
def periodKeyOf (cohortYear cohortMonth idx : Nat) : String :=
  let dateYear : Nat := if cohortYear ≤ 99 then 1900 + cohortYear else cohortYear
  let lin : Int := (dateYear : Int) * 12 + ((cohortMonth : Int) - 1) + (idx : Int)
  String.mk (intToDigits (lin.fdiv 12) ++ '-' :: intPad2 (lin.fmod 12 + 1))

/-- One cohort record (the body of the Object.entries map at
App.tsx 643-690), over one group g of key and member rows. -/
def cohortEntry (latestYear latestMonth : Nat)
    (g : String × List CustomerData) : CohortData :=
  let cohort := g.1
  let customers := g.2
  let cym := parseYM cohort
  let cohortYear := cym.1
  let cohortMonth := cym.2
  if cohortYear > latestYear ∨ (cohortYear = latestYear ∧ cohortMonth > latestMonth) then
    { cohort := cohort, initialCustomers := customers.length,
      initialRevenue := 0, periods := [] }
  else
    let initialRevenue := customers.foldl
      (fun sum c => sum + cleanCurrencyString (getCell c cohort)) 0
    let monthsDiff : Int :=
      ((latestYear : Int) - (cohortYear : Int)) * 12 +
        ((latestMonth : Int) - (cohortMonth : Int))
    let periods : List CohortPeriod := (jsRange (monthsDiff + 1)).map (fun idx =>
      let periodKey := periodKeyOf cohortYear cohortMonth idx
      let activeCustomers := (customers.filter (fun c =>
        decide (cleanCurrencyString (jsOr (getCell c periodKey) (.num 0)) > 0))).length
      let periodRevenue := customers.foldl (fun sum c =>
        sum + cleanCurrencyString (jsOr (getCell c periodKey) (.num 0))) 0
      { retained := activeCustomers, revenue := periodRevenue,
        retentionRate := ((activeCustomers : ℚ) / (customers.length : ℚ)) * 100,
        revenueRate :=
          if idx = 0 then 100
          else if initialRevenue > 0 then (periodRevenue / initialRevenue) * 100
          else 0 })
    { cohort := cohort, initialCustomers := customers.length,
      initialRevenue := initialRevenue, periods := periods }

/-- calculateCohortData (App.tsx 624-691).  It is invoked on the raw,
unfiltered row list.  An empty period axis makes the source dereference
undefined (TypeError), modelled as none. -/
def calculateCohortData (data : List CustomerData) (dateColumns : List String) :
    Option (List CohortData) :=
  let cohortGroups := buildCohortGroups data dateColumns
  match dateColumns.getLast? with
  | none => none
  | some latestAvailableDate =>
    let lym := parseYM latestAvailableDate
    let latestYear := lym.1
    let latestMonth := lym.2
    some (cohortGroups.map (cohortEntry latestYear latestMonth))

/-! ### The whole engine invocation (calculateMetrics, App.tsx 383-622) -/

structure AnalysisResult where
  metrics : List MetricsData
  summaries : List CustomerSummary
  cohorts : List CohortData
deriving DecidableEq

/-- The filtered row list of App.tsx 387-391. -/
def filteredCustomers (data : List CustomerData) : List CustomerData :=
  data.filter rowFilter

/-- The sorted period axis of App.tsx 393-395: the date-shaped keys of
the first filtered row.  Empty when every row is filtered out (the
source would throw there, handled in calculateMetrics). -/
def axisOf (data : List CustomerData) : List String :=
  match filteredCustomers data with
  | [] => []
  | c0 :: _ => sortStrings ((c0.cells.map Prod.fst).filter isDateKey)

/-- The monthly series before quarterly enrichment; the source maps over
dateColumns with (date, index), written here as a map over indices. -/
def baseMetrics (data : List CustomerData) : List MetricsData :=
  (List.range (axisOf data).length).map (fun k =>
    monthlyMetric (filteredCustomers data) (axisOf data) k
      ((axisOf data).getD k ""))

/-- The monthly series after the quarterly forEach. -/
def fullMetrics (data : List CustomerData) : List MetricsData :=
  (baseMetrics data).map (addQuarterly (filteredCustomers data) (baseMetrics data))

/-- The customer summary list of App.tsx 573-614. -/
def summariesOf (data : List CustomerData) : List CustomerSummary :=
  let dateColumns := axisOf data
  let lastMonth := getIdx dateColumns ((dateColumns.length : Int) - 1)
  let lastQuarterMonth :=
    match getIdx dateColumns ((dateColumns.length : Int) - 4) with
    | some d => some d
    | none => lastMonth
  (filteredCustomers data).map (mkSummary dateColumns lastMonth lastQuarterMonth)

/-- calculateMetrics (App.tsx 383-622): none for the early return on
empty input and for the two undefined dereferences (all rows filtered
out, or an empty period axis inside calculateCohortData); note the
cohort pass receives the raw data while everything else uses the
filtered rows. -/
def calculateMetrics (data : List CustomerData) : Option AnalysisResult :=
  if data.isEmpty then none
  else
    match filteredCustomers data with
    | [] => none
    | _ :: _ =>
      match calculateCohortData data (axisOf data) with
      | none => none
      | some cohorts =>
        some { metrics := fullMetrics data, summaries := summariesOf data,
               cohorts := cohorts }

/-! ### Spec-side definitions (for refinement statements) -/

/-- The spec's reference-cohort retention ratio: the cohort is the set of
customers with nonzero normalized revenue at the reference key, and the
ratio is their current revenue over their reference revenue times 100,
defaulting to 100 on a zero reference sum. -/
def specNrr (customers : List CustomerData) (prevKey : Option String)
    (curKey : String) : ℚ :=
  let cohort := customers.filter
    (fun c => decide (0 < cleanCurrencyString (getCellOpt c prevKey)))
  let prevSum := (cohort.map (fun c => cleanCurrencyString (getCellOpt c prevKey))).sum
  let curSum := (cohort.map (fun c => cleanCurrencyString (getCell c curKey))).sum
  if prevSum = 0 then 100 else (curSum / prevSum) * 100

/-- Modelled from the spec (section 4.1), word for word, for the C4
refinement statement: numeric input passes through unchanged; falsy or
empty input yields 0; the trimmed literal tokens "-", "$-", "N/A" yield
0; otherwise strip whitespace, "$" and ",", parse as a decimal, and a
failed parse yields 0. -/
def normalizeSpec (v : CellValue) : ℚ :=
  match v with
  | .num q => q
  | .undef => 0
  | .str s =>
    if s = "" then 0
    else if jsTrim s = "-" ∨ jsTrim s = "$-" ∨ jsTrim s = "N/A" then 0
    else (parseFloatQ (stripCurrency s)).getD 0

/-- The default result used to name the computed output in closed
concrete statements. -/
def emptyResult : AnalysisResult :=
  { metrics := [], summaries := [], cohorts := [] }

/-- An all-empty metric record, used only to name list entries in closed
concrete statements. -/
def defaultMetric : MetricsData :=
  { date := "", mrr := 0, arr := 0, growthRate := none, nrr := none,
    netNewRevenue := none, acv := 0, activeCustomers := 0,
    quarterlyMrr := none, quarterlyArr := none, quarterlyGrowth := none,
    quarterlyNrr := none, quarterlyNetNew := none, quarterlyAcv := none,
    quarterlyActiveCustomers := none, formattedQuarter := none }

/-! ### Concrete example data for closed statements -/

/-- A steadily growing customer over six months of 2024. -/
def rowA : CustomerData :=
  ⟨"A", [("2024-01", .num 7), ("2024-02", .num 8), ("2024-03", .num 9),
         ("2024-04", .num 10), ("2024-05", .num 12), ("2024-06", .num 15)]⟩

/-- A customer with gaps. -/
def rowB : CustomerData :=
  ⟨"B", [("2024-01", .num 0), ("2024-02", .num 3), ("2024-03", .num 0),
         ("2024-04", .num 4), ("2024-05", .num 0), ("2024-06", .num 5)]⟩

/-- A churned customer: revenue in the first month only. -/
def rowC : CustomerData :=
  ⟨"C", [("2024-01", .num 2), ("2024-02", .num 0), ("2024-03", .num 0),
         ("2024-04", .num 0), ("2024-05", .num 0), ("2024-06", .num 0)]⟩

def exData : List CustomerData := [rowA, rowB, rowC]

def exRes : AnalysisResult := (calculateMetrics exData).getD emptyResult

def exMetric (i : Nat) : MetricsData :=
  (exRes.metrics.get? i).getD defaultMetric

/-- A Totals row carrying revenue; the row filter drops it but the
cohort pass receives the raw data. -/
def rowTotals : CustomerData := ⟨"Totals", [("2024-01", .num 9)]⟩

def rowD : CustomerData := ⟨"D", [("2024-01", .num 7)]⟩

def exDataT : List CustomerData := [rowD, rowTotals]

def exResT : AnalysisResult := (calculateMetrics exDataT).getD emptyResult

/-- A Totals row whose only revenue is negative: its normalized revenue
is nonzero in 2024-01 yet positive in no month. -/
def rowTotalsNeg : CustomerData := ⟨"Totals", [("2024-01", .num (-9))]⟩

def exDataTN : List CustomerData := [rowD, rowTotalsNeg]

def exResTN : AnalysisResult := (calculateMetrics exDataTN).getD emptyResult

/-- A customer whose only month key has a year with a leading zero, so
the rebuilt cohort key differs from the column key and the cohort's
initial revenue is 0. -/
def rowZ : CustomerData := ⟨"Z", [("0024-01", .num 5)]⟩

def exDataZ : List CustomerData := [rowZ]

def exResZ : AnalysisResult := (calculateMetrics exDataZ).getD emptyResult

/-- An all-empty cohort record, used only to name list entries in closed
concrete statements. -/
def defaultCohort : CohortData :=
  { cohort := "", initialCustomers := 0, initialRevenue := 0, periods := [] }

def exCohortZ : CohortData := (exResZ.cohorts.get? 0).getD defaultCohort

/-- An all-empty summary record, used only to name list entries in
closed concrete statements. -/
def defaultSummary : CustomerSummary :=
  { id := "", customer := "", startDate := "", endDate := "",
    currentMrr := 0, lastQuarterMrr := 0, arr := 0, quarterlyChange := 0,
    status := "", ltv := 0 }

def exSummary (j : Nat) : CustomerSummary :=
  (exRes.summaries.get? j).getD defaultSummary

/-- A customer whose only nonzero cell is negative: its normalized
revenue is nonzero in 2024-01 yet never positive. -/
def rowN : CustomerData := ⟨"N", [("2024-01", .num (-5)), ("2024-02", .num 0)]⟩

def exDataN : List CustomerData := [rowN]

def exResN : AnalysisResult := (calculateMetrics exDataN).getD emptyResult

/-! ### Generic list facts -/

theorem foldl_add_eq_sum {α : Type} (l : List α) (f : α → ℚ) (init : ℚ) :
    l.foldl (fun s a => s + f a) init = init + (l.map f).sum := by
  induction l generalizing init with
  | nil => simp
  | cons a t ih => simp [ih, add_assoc]

theorem find?_eq_filter_head? {α : Type} (l : List α) (p : α → Bool) :
    l.find? p = (l.filter p).head? := by
  induction l with
  | nil => rfl
  | cons a t ih =>
    cases hpa : p a with
    | true =>
      rw [List.find?_cons_of_pos _ hpa, List.filter_cons_of_pos hpa]
      rfl
    | false =>
      rw [List.find?_cons_of_neg _ (by simp [hpa]),
        List.filter_cons_of_neg (by simp [hpa]), ih]

theorem reverse_find?_eq_filter_getLast? {α : Type} (l : List α) (p : α → Bool) :
    l.reverse.find? p = (l.filter p).getLast? := by
  rw [find?_eq_filter_head?, List.filter_reverse, List.head?_reverse]

theorem find?_unique {α : Type} {l : List α} {p : α → Bool} {b : α}
    (hb : b ∈ l) (hpb : p b = true)
    (huniq : ∀ x ∈ l, p x = true → x = b) : l.find? p = some b := by
  induction l with
  | nil => cases hb
  | cons a t ih =>
    by_cases h : p a
    · have ha := huniq a (List.mem_cons_self a t) h
      subst ha
      rw [List.find?_cons_of_pos _ h]
    · rcases List.mem_cons.mp hb with rfl | hbt
      · rw [hpb] at h
        exact absurd rfl h
      · rw [List.find?_cons_of_neg _ (by simp [Bool.not_eq_true] at h; simp [h])]
        exact ih hbt fun x hx hpx => huniq x (List.mem_cons_of_mem _ hx) hpx

theorem find?_map_range {β : Type} (f : Nat → β) (p : β → Bool) (T j : Nat)
    (hp : ∀ k, p (f k) = decide (k = j)) :
    ((List.range T).map f).find? p = if j < T then some (f j) else none := by
  induction T with
  | zero => simp
  | succ T ih =>
    rw [List.range_succ, List.map_append, List.find?_append, ih]
    by_cases hj : j < T
    · simp [hj, Nat.lt_succ_of_lt hj]
    · by_cases hj2 : j = T
      · subst hj2
        simp [hj, hp]
      · have hT : p (f T) = false := by rw [hp]; simp [Ne.symm hj2]
        have : ¬ j < T + 1 := by omega
        simp [hj, this, hT]

/-! ### Digit printer and parser facts -/

theorem natToDigitsAux_stable :
    ∀ (f : Nat), ∀ (g n : Nat), n < f → n < g →
      natToDigitsAux f n = natToDigitsAux g n := by
  intro f
  induction f with
  | zero => intro g n h _; omega
  | succ f ih =>
    intro g n hf hg
    cases g with
    | zero => omega
    | succ g =>
      simp only [natToDigitsAux]
      by_cases h : n < 10
      · simp [h]
      · have hd : n / 10 < n := Nat.div_lt_self (by omega) (by omega)
        rw [if_neg h, if_neg h, ih g (n / 10) (by omega) (by omega)]

theorem natToDigitsAux_succ (fuel n : Nat) :
    natToDigitsAux (fuel + 1) n =
      if n < 10 then [digitChar n]
      else natToDigitsAux fuel (n / 10) ++ [digitChar (n % 10)] := rfl

theorem natToDigits_eq (n : Nat) :
    natToDigits n =
      if n < 10 then [digitChar n]
      else natToDigits (n / 10) ++ [digitChar (n % 10)] := by
  unfold natToDigits
  rw [natToDigitsAux_succ]
  by_cases h : n < 10
  · rw [if_pos h, if_pos h]
  · have hd : n / 10 < n := Nat.div_lt_self (by omega) (by omega)
    rw [if_neg h, if_neg h]
    congr 1
    exact natToDigitsAux_stable n (n / 10 + 1) (n / 10) (by omega) (Nat.lt_succ_self _)

theorem digitVal_digitChar {d : Nat} (h : d < 10) : digitVal (digitChar d) = d := by
  interval_cases d <;> decide

theorem digitChar_isDigit (d : Nat) : (digitChar d).isDigit = true := by
  match d with
  | 0 | 1 | 2 | 3 | 4 | 5 | 6 | 7 | 8 => decide
  | n + 9 => rfl

theorem isDigit_ne_dash {c : Char} (h : c.isDigit = true) : c ≠ '-' := by
  intro hc
  subst hc
  exact absurd h (by decide)

theorem digitsToNat_append (l : List Char) (c : Char) :
    digitsToNat (l ++ [c]) = 10 * digitsToNat l + digitVal c := by
  unfold digitsToNat
  rw [List.foldl_append]
  simp [Nat.mul_comm]

theorem digitsToNat_natToDigits (n : Nat) : digitsToNat (natToDigits n) = n := by
  induction n using Nat.strong_induction_on with
  | _ n ih =>
    rw [natToDigits_eq]
    by_cases h : n < 10
    · simp [h, digitsToNat, digitVal_digitChar h]
    · have hd : n / 10 < n := Nat.div_lt_self (by omega) (by omega)
      rw [if_neg h, digitsToNat_append, ih (n / 10) hd,
        digitVal_digitChar (Nat.mod_lt _ (by omega))]
      omega

theorem natToDigits_all_digit (n : Nat) :
    ∀ c ∈ natToDigits n, c.isDigit = true := by
  induction n using Nat.strong_induction_on with
  | _ n ih =>
    rw [natToDigits_eq]
    by_cases h : n < 10
    · simp only [if_pos h, List.mem_singleton]
      rintro c rfl
      exact digitChar_isDigit n
    · have hd : n / 10 < n := Nat.div_lt_self (by omega) (by omega)
      simp only [if_neg h, List.mem_append, List.mem_singleton]
      rintro c (hc | rfl)
      · exact ih (n / 10) hd c hc
      · exact digitChar_isDigit (n % 10)

theorem pad2digits_all_digit (m : Nat) :
    ∀ c ∈ pad2digits m, c.isDigit = true := by
  unfold pad2digits
  by_cases h : m < 10
  · simp only [if_pos h, List.mem_cons]
    rintro c (rfl | hc)
    · decide
    · exact natToDigits_all_digit m c hc
  · simp only [if_neg h]
    exact natToDigits_all_digit m

theorem digitsToNat_cons_zero (l : List Char) :
    digitsToNat ('0' :: l) = digitsToNat l := by
  unfold digitsToNat
  rw [List.foldl_cons]
  congr 1

theorem digitsToNat_pad2digits (m : Nat) : digitsToNat (pad2digits m) = m := by
  unfold pad2digits
  by_cases h : m < 10
  · rw [if_pos h, digitsToNat_cons_zero, digitsToNat_natToDigits]
  · rw [if_neg h, digitsToNat_natToDigits]

/-! ### Splitting facts -/

theorem splitOnDashAux_no_dash (l : List Char) (h : ∀ c ∈ l, c ≠ '-') :
    ∀ acc, splitOnDashAux l acc = [acc.reverse ++ l] := by
  induction l with
  | nil => intro acc; simp [splitOnDashAux]
  | cons c t ih =>
    intro acc
    have hc : c ≠ '-' := h c (List.mem_cons_self c t)
    simp only [splitOnDashAux, if_neg hc]
    rw [ih (fun x hx => h x (List.mem_cons_of_mem _ hx)) (c :: acc)]
    simp

theorem splitOnDashAux_append (xs ys : List Char) (hxs : ∀ c ∈ xs, c ≠ '-') :
    ∀ acc, splitOnDashAux (xs ++ '-' :: ys) acc =
      (acc.reverse ++ xs) :: splitOnDash ys := by
  induction xs with
  | nil => intro acc; simp [splitOnDashAux, splitOnDash]
  | cons c t ih =>
    intro acc
    have hc : c ≠ '-' := hxs c (List.mem_cons_self c t)
    rw [List.cons_append]
    rw [show splitOnDashAux (c :: (t ++ '-' :: ys)) acc
        = splitOnDashAux (t ++ '-' :: ys) (c :: acc) from by
      simp only [splitOnDashAux, if_neg hc]]
    rw [ih (fun x hx => hxs x (List.mem_cons_of_mem _ hx)) (c :: acc)]
    simp

theorem splitOnDash_append (xs ys : List Char) (hxs : ∀ c ∈ xs, c ≠ '-')
    (hys : ∀ c ∈ ys, c ≠ '-') :
    splitOnDash (xs ++ '-' :: ys) = [xs, ys] := by
  unfold splitOnDash
  rw [splitOnDashAux_append xs ys hxs []]
  rw [show splitOnDash ys = [ys] from by
    unfold splitOnDash
    rw [splitOnDashAux_no_dash ys hys []]
    simp]
  simp

/-! ### Month key round trips -/

theorem parseYM_ymKey (y m : Nat) : parseYM (ymKey y m) = (y, m) := by
  unfold parseYM ymKey
  have hy : ∀ c ∈ natToDigits y, c ≠ '-' :=
    fun c hc => isDigit_ne_dash (natToDigits_all_digit y c hc)
  have hm : ∀ c ∈ pad2digits m, c ≠ '-' :=
    fun c hc => isDigit_ne_dash (pad2digits_all_digit m c hc)
  rw [show (String.mk (natToDigits y ++ '-' :: pad2digits m)).data
      = natToDigits y ++ '-' :: pad2digits m from rfl]
  rw [splitOnDash_append _ _ hy hm]
  simp only [jsNumOfChars]
  rw [if_pos (by rw [List.all_eq_true]; exact fun c hc => natToDigits_all_digit y c hc),
    if_pos (by rw [List.all_eq_true]; exact fun c hc => pad2digits_all_digit m c hc)]
  simp only [digitsToNat_natToDigits, digitsToNat_pad2digits]

theorem parseYM_fmtYM (n : Nat) : parseYM (fmtYM n) = (n / 12, n % 12 + 1) :=
  parseYM_ymKey (n / 12) (n % 12 + 1)

theorem fmtYM_inj {a b : Nat} (h : fmtYM a = fmtYM b) : a = b := by
  have h2 := congrArg parseYM h
  rw [parseYM_fmtYM, parseYM_fmtYM] at h2
  have h3 := congrArg Prod.fst h2
  have h4 := congrArg Prod.snd h2
  simp only at h3 h4
  omega

theorem intToDigits_ofNat (q : Nat) : intToDigits (q : Int) = natToDigits q := by
  unfold intToDigits
  rw [if_neg (by omega)]
  congr 1

theorem intToDigits_coe_sub_one (q : Nat) (h : 1 ≤ q) :
    intToDigits ((q : Int) - 1) = natToDigits (q - 1) := by
  unfold intToDigits
  rw [if_neg (by omega)]
  congr 1
  omega

theorem natToDigits_ne_nil (n : Nat) : natToDigits n ≠ [] := by
  rw [natToDigits_eq]
  by_cases h : n < 10 <;> simp [h]

theorem natToDigits_length_lt_two_iff (k : Nat) :
    (natToDigits k).length < 2 ↔ k < 10 := by
  constructor
  · intro h
    by_contra h2
    rw [natToDigits_eq, if_neg h2, List.length_append] at h
    have := List.length_pos.mpr (natToDigits_ne_nil (k / 10))
    simp at h
    omega
  · intro h
    rw [natToDigits_eq, if_pos h]
    simp

theorem intPad2_coe (k : Nat) : intPad2 (k : Int) = pad2digits k := by
  unfold intPad2
  rw [intToDigits_ofNat]
  unfold pad2digits
  by_cases h : k < 10
  · rw [if_pos ((natToDigits_length_lt_two_iff k).mpr h), if_pos h]
  · rw [if_neg (by
      intro hlen
      exact h ((natToDigits_length_lt_two_iff k).mp hlen)), if_neg h]

theorem prevQuarterDateOf_march (y : Nat) (hy : 1 ≤ y) :
    prevQuarterDateOf y 3 = ymKey (y - 1) 12 := by
  simp only [prevQuarterDateOf, ymKey]
  rw [if_pos (by norm_num), if_pos (by norm_num)]
  rw [intToDigits_coe_sub_one y hy]
  rw [show ((3 : Nat) : Int) - 3 + 12 = ((12 : Nat) : Int) from by norm_num]
  rw [intPad2_coe]

theorem prevQuarterDateOf_late (y m : Nat) (hm : 4 ≤ m) :
    prevQuarterDateOf y m = ymKey y (m - 3) := by
  simp only [prevQuarterDateOf, ymKey]
  rw [if_neg (by omega), if_neg (by omega)]
  rw [intToDigits_ofNat]
  rw [show ((m : Nat) : Int) - 3 = ((m - 3 : Nat) : Int) from by omega]
  rw [intPad2_coe]

theorem prevQuarterDateOf_fmtYM (n : Nat) (hn : 12 ≤ n)
    (hq : (n % 12 + 1) % 3 = 0) :
    prevQuarterDateOf (n / 12) (n % 12 + 1) = fmtYM (n - 3) := by
  have hq1 : 1 ≤ n / 12 := by omega
  have hr : n % 12 = 2 ∨ n % 12 = 5 ∨ n % 12 = 8 ∨ n % 12 = 11 := by omega
  unfold fmtYM
  rcases hr with h | h | h | h
  · have e1 : (n - 3) / 12 = n / 12 - 1 := by omega
    have e2 : (n - 3) % 12 + 1 = 12 := by omega
    rw [h, e1, e2]
    exact prevQuarterDateOf_march (n / 12) hq1
  · have e1 : (n - 3) / 12 = n / 12 := by omega
    have e2 : (n - 3) % 12 + 1 = 3 := by omega
    rw [h, e1, e2]
    exact prevQuarterDateOf_late (n / 12) 6 (by omega)
  · have e1 : (n - 3) / 12 = n / 12 := by omega
    have e2 : (n - 3) % 12 + 1 = 6 := by omega
    rw [h, e1, e2]
    exact prevQuarterDateOf_late (n / 12) 9 (by omega)
  · have e1 : (n - 3) / 12 = n / 12 := by omega
    have e2 : (n - 3) % 12 + 1 = 9 := by omega
    rw [h, e1, e2]
    exact prevQuarterDateOf_late (n / 12) 12 (by omega)

/-! ### Engine shape lemmas -/

theorem contains_name_filter {customers : List CustomerData}
    {p : CustomerData → Bool}
    (hnd : (customers.map (fun c => c.name)).Nodup) :
    customers.filter
        (fun c => ((customers.filter p).map (fun c => c.name)).contains c.name)
      = customers.filter p := by
  apply List.filter_congr
  intro c hc
  by_cases hp : p c = true
  · rw [hp]
    have hmem : c.name ∈ (customers.filter p).map (fun c => c.name) :=
      List.mem_map_of_mem _ (List.mem_filter.mpr ⟨hc, hp⟩)
    simpa using hmem
  · rw [show p c = false from by simpa using hp]
    simp only [List.contains_eq_any_beq, List.any_eq_false]
    intro x hx
    rcases List.mem_map.mp hx with ⟨c2, hc2, rfl⟩
    rcases List.mem_filter.mp hc2 with ⟨hc2m, hp2⟩
    intro hbeq
    have heq : c.name = c2.name := by simpa using hbeq
    have : c2 = c := List.inj_on_of_nodup_map hnd hc2m hc heq.symm
    subst this
    exact hp hp2

/-- The source's Set-of-names NRR computation coincides with the spec's
reference-cohort formula when customer names are unique. -/
theorem codeNrr_eq_specNrr (customers : List CustomerData)
    (hnd : (customers.map (fun c => c.name)).Nodup)
    (prevKey : Option String) (curKey : String) :
    codeNrr customers prevKey curKey = specNrr customers prevKey curKey := by
  simp only [codeNrr, specNrr]
  rw [contains_name_filter hnd, foldl_add_eq_sum, foldl_add_eq_sum]
  simp

theorem addQuarterly_preserves (customers : List CustomerData)
    (base : List MetricsData) (metric : MetricsData) :
    (addQuarterly customers base metric).date = metric.date ∧
    (addQuarterly customers base metric).mrr = metric.mrr ∧
    (addQuarterly customers base metric).arr = metric.arr ∧
    (addQuarterly customers base metric).growthRate = metric.growthRate ∧
    (addQuarterly customers base metric).nrr = metric.nrr ∧
    (addQuarterly customers base metric).netNewRevenue = metric.netNewRevenue ∧
    (addQuarterly customers base metric).acv = metric.acv ∧
    (addQuarterly customers base metric).activeCustomers = metric.activeCustomers := by
  simp only [addQuarterly]
  split
  · exact ⟨rfl, rfl, rfl, rfl, rfl, rfl, rfl, rfl⟩
  · exact ⟨rfl, rfl, rfl, rfl, rfl, rfl, rfl, rfl⟩

theorem addQuarterly_not_qe (customers : List CustomerData)
    (base : List MetricsData) (metric : MetricsData)
    (h : ¬ (parseYM metric.date).2 % 3 = 0) :
    addQuarterly customers base metric = metric := by
  simp only [addQuarterly]
  rw [if_neg h]

theorem calculateMetrics_some {data : List CustomerData} {res : AnalysisResult}
    (h : calculateMetrics data = some res) :
    res.metrics = fullMetrics data ∧ res.summaries = summariesOf data ∧
      calculateCohortData data (axisOf data) = some res.cohorts ∧
      filteredCustomers data ≠ [] ∧ data ≠ [] := by
  unfold calculateMetrics at h
  by_cases hd : data.isEmpty
  · rw [if_pos hd] at h
    cases h
  · rw [if_neg hd] at h
    rcases hc : filteredCustomers data with _ | ⟨c0, rest⟩
    · rw [hc] at h
      cases h
    · rw [hc] at h
      rcases hco : calculateCohortData data (axisOf data) with _ | cohorts
      · rw [hco] at h
        cases h
      · rw [hco] at h
        cases h
        exact ⟨rfl, rfl, rfl, by simp,
          by intro he; rw [he] at hd; exact hd rfl⟩

theorem baseMetrics_get? (data : List CustomerData) (i : Nat)
    (hi : i < (axisOf data).length) :
    (baseMetrics data).get? i =
      some (monthlyMetric (filteredCustomers data) (axisOf data) i
        ((axisOf data).getD i "")) := by
  unfold baseMetrics
  rw [List.get?_map, List.get?_range hi]
  rfl

theorem baseMetrics_length (data : List CustomerData) :
    (baseMetrics data).length = (axisOf data).length := by
  unfold baseMetrics
  simp

theorem fullMetrics_get? (data : List CustomerData) (i : Nat) :
    (fullMetrics data).get? i =
      ((baseMetrics data).get? i).map
        (addQuarterly (filteredCustomers data) (baseMetrics data)) := by
  unfold fullMetrics
  rw [List.get?_map]

theorem mem_insertStr {a x : String} {l : List String} :
    x ∈ insertStr a l ↔ x = a ∨ x ∈ l := by
  induction l with
  | nil => simp [insertStr]
  | cons b bs ih =>
    unfold insertStr
    by_cases h : a < b
    · simp [h]
    · rw [if_neg h]
      simp only [List.mem_cons, ih]
      tauto

theorem mem_sortStrings {x : String} {l : List String} :
    x ∈ sortStrings l ↔ x ∈ l := by
  unfold sortStrings
  suffices h : ∀ acc, x ∈ l.foldl (fun acc a => insertStr a acc) acc ↔ x ∈ acc ∨ x ∈ l by
    rw [h []]
    simp
  induction l with
  | nil => intro acc; simp
  | cons b bs ih =>
    intro acc
    rw [List.foldl_cons, ih (insertStr b acc)]
    rw [mem_insertStr]
    simp only [List.mem_cons]
    tauto

theorem axisOf_isDateKey (data : List CustomerData) {d : String}
    (hd : d ∈ axisOf data) : isDateKey d = true := by
  unfold axisOf at hd
  rcases hc : filteredCustomers data with _ | ⟨c0, rest⟩
  · rw [hc] at hd
    cases hd
  · rw [hc] at hd
    rw [mem_sortStrings] at hd
    exact (List.mem_filter.mp hd).2

theorem isDateKey_ne_empty {d : String} (h : isDateKey d = true) : d ≠ "" := by
  intro he
  subst he
  exact absurd h (by decide)

/-! ### Sign and nonnegativity facts for the parser -/

theorem parseSign_fst_false {l : List Char} (h : '-' ∉ l) :
    (parseSign l).1 = false := by
  cases l with
  | nil => rfl
  | cons c rest =>
    have hc : c ≠ '-' := fun he => h (he ▸ List.mem_cons_self c rest)
    simp only [parseSign]
    rw [if_neg hc]
    by_cases hp : c = '+' <;> simp [hp]

theorem parseFloatQ_nonneg {s : String} (hs : '-' ∉ s.data) :
    ∀ q, parseFloatQ s = some q → 0 ≤ q := by
  intro q hq
  simp only [parseFloatQ] at hq
  split at hq
  · cases hq
  · rw [parseSign_fst_false hs] at hq
    simp only [Bool.false_eq_true, if_false] at hq
    cases hq
    split
    · positivity
    · positivity

/-- C3 counterexample: the Amount Normalizer passes a negative numeric
cell through unchanged, so its result is not always nonnegative. -/
theorem C3_counterexample : cleanCurrencyString (.num (-5)) < 0 := by
  show (-5 : ℚ) < 0
  norm_num

/-- C3 (amended): the Amount Normalizer returns a nonnegative amount for
every nonnegative numeric input, every absent cell, and every string
input containing no minus sign; a negative numeric input passes through
unchanged and can make the result negative. -/
theorem C3_nonneg_amended (v : CellValue)
    (hv : match v with
      | .num q => 0 ≤ q
      | .str s => '-' ∉ s.data
      | .undef => True) :
    0 ≤ cleanCurrencyString v := by
  cases v with
  | num q => exact hv
  | undef => exact le_refl 0
  | str s =>
    simp only [cleanCurrencyString]
    split
    · exact le_refl 0
    · split
      · exact le_refl 0
      · split
        · exact le_refl 0
        · rename_i q hq
          exact parseFloatQ_nonneg (by
            intro hmem
            exact hv (by
              have := List.mem_filter.mp (show '-' ∈ (stripCurrency s).data from hmem)
              exact this.1)) q hq

/-- C3 witness: the amended statement at the concrete input "$1,234.50".
-/
theorem C3_witness :
    ('-' ∉ "$1,234.50".data) ∧ 0 ≤ cleanCurrencyString (.str "$1,234.50") :=
  ⟨by decide, C3_nonneg_amended (.str "$1,234.50") (by decide)⟩

/-- C4: the Amount Normalizer is total (it is a Lean function into ℚ,
hence never raises), it agrees pointwise with the spec's description
(numeric passthrough, 0 for absent and empty cells, 0 for the trimmed
sentinels, otherwise the decimal parse of the stripped string with 0 on
a failed parse), and it takes the spec's example values. -/
theorem C4_normalizer_contract :
    (∀ v : CellValue, cleanCurrencyString v = normalizeSpec v) ∧
    cleanCurrencyString (.str "$1,234.50") = 1234.5 ∧
    cleanCurrencyString (.str "N/A") = 0 ∧
    cleanCurrencyString (.str "-") = 0 ∧
    cleanCurrencyString (.num 500) = 500 ∧
    cleanCurrencyString (.str "") = 0 := by
  refine ⟨?_, ?_, ?_, ?_, ?_, ?_⟩
  · intro v
    cases v with
    | num q => rfl
    | undef => rfl
    | str s =>
      simp only [cleanCurrencyString, normalizeSpec]
      by_cases h0 : s = ""
      · rw [if_pos h0, if_pos h0]
      · rw [if_neg h0, if_neg h0]
        by_cases ht : jsTrim s = "-" ∨ jsTrim s = "$-" ∨ jsTrim s = "N/A"
        · rw [if_pos (by simp only [Bool.or_eq_true, decide_eq_true_eq]; tauto),
            if_pos ht]
        · rw [if_neg (by simp only [Bool.or_eq_true, decide_eq_true_eq]; tauto),
            if_neg ht]
          cases parseFloatQ (stripCurrency s) <;> rfl
  · have h1 : (cleanCurrencyString (.str "$1,234.50")).num = 2469 := by
      with_unfolding_all decide
    have h2 : (cleanCurrencyString (.str "$1,234.50")).den = 2 := by
      with_unfolding_all decide
    have h3 : (1234.5 : ℚ).num = 2469 := by norm_num
    have h4 : (1234.5 : ℚ).den = 2 := by norm_num
    exact Rat.ext (h1.trans h3.symm) (h2.trans h4.symm)
  · with_unfolding_all decide
  · with_unfolding_all decide
  · with_unfolding_all decide
  · with_unfolding_all decide

/-! ### Further helpers for the metric claims -/

theorem get?_eq_some_getD {α : Type} (l : List α) (i : Nat) (d : α)
    (h : i < l.length) : l.get? i = some (l.getD i d) := by
  induction l generalizing i with
  | nil => simp at h
  | cons a t ih =>
    cases i with
    | zero => rfl
    | succ j => exact ih j (by simpa using h)

theorem sum_map_mul12 (l : List CustomerData) (f : CustomerData → ℚ) :
    (l.map (fun c => f c * 12)).sum = 12 * (l.map f).sum := by
  induction l with
  | nil => simp
  | cons a t ih =>
    simp only [List.map_cons, List.sum_cons, ih]
    ring

theorem getIdx_sub3 (l : List String) (i : Nat) (h : 3 ≤ i) :
    getIdx l ((i : Int) - 3) = l.get? (i - 3) := by
  unfold getIdx
  rw [if_neg (by omega)]
  congr 1
  omega

theorem getIdx_neg3 (l : List String) (i : Nat) (h : i < 3) :
    getIdx l ((i : Int) - 3) = none := by
  unfold getIdx
  rw [if_pos (by omega)]

theorem metrics_get_unpack {data : List CustomerData} {res : AnalysisResult}
    (h : calculateMetrics data = some res) {i : Nat} {m : MetricsData}
    (hm : res.metrics.get? i = some m) :
    i < (axisOf data).length ∧
    m = addQuarterly (filteredCustomers data) (baseMetrics data)
      (monthlyMetric (filteredCustomers data) (axisOf data) i
        ((axisOf data).getD i "")) := by
  obtain ⟨hmet, -, -, -, -⟩ := calculateMetrics_some h
  rw [hmet, fullMetrics_get?] at hm
  have hi : i < (axisOf data).length := by
    by_contra hcon
    rw [List.get?_eq_none.mpr (by rw [baseMetrics_length]; omega)] at hm
    cases hm
  rw [baseMetrics_get? data i hi] at hm
  simp only [Option.map_some'] at hm
  exact ⟨hi, (Option.some.inj hm).symm⟩

theorem monthlyMetric_date (cs : List CustomerData) (axis : List String)
    (i : Nat) (d : String) : (monthlyMetric cs axis i d).date = d := rfl

theorem monthlyMetric_mrr (cs : List CustomerData) (axis : List String)
    (i : Nat) (d : String) : (monthlyMetric cs axis i d).mrr =
    cs.foldl (fun sum c => sum + cleanCurrencyString (getCell c d)) 0 := rfl

theorem monthlyMetric_arr (cs : List CustomerData) (axis : List String)
    (i : Nat) (d : String) : (monthlyMetric cs axis i d).arr =
    (monthlyMetric cs axis i d).mrr * 12 := rfl

theorem monthlyMetric_nrr (cs : List CustomerData) (axis : List String)
    (i : Nat) (d : String) : (monthlyMetric cs axis i d).nrr =
    some (if i > 0 then codeNrr cs (getIdx axis ((i : Int) - 1)) d else 0) := rfl

theorem monthlyMetric_growthRate (cs : List CustomerData) (axis : List String)
    (i : Nat) (d : String) :
    (monthlyMetric cs axis i d).growthRate = some (if i > 0 then
      (if cs.foldl (fun sum c => sum + cleanCurrencyString
            (getCellOpt c (getIdx axis ((i : Int) - 3))) * 12) 0 = 0 then 0
       else ((cs.foldl (fun sum c => sum + cleanCurrencyString (getCell c d)) 0 * 12
          - cs.foldl (fun sum c => sum + cleanCurrencyString
            (getCellOpt c (getIdx axis ((i : Int) - 3))) * 12) 0)
         / cs.foldl (fun sum c => sum + cleanCurrencyString
            (getCellOpt c (getIdx axis ((i : Int) - 3))) * 12) 0) * 100)
      else 0) := rfl

theorem foldl_none_mul12 (cs : List CustomerData) :
    cs.foldl (fun sum c =>
      sum + cleanCurrencyString (getCellOpt c none) * 12) 0 = 0 := by
  rw [foldl_add_eq_sum, List.sum_eq_zero]
  · simp
  · intro x hx
    rcases List.mem_map.mp hx with ⟨c, -, rfl⟩
    show cleanCurrencyString CellValue.undef * 12 = 0
    show (0 : ℚ) * 12 = 0
    ring

theorem foldl_some_mul12 (cs : List CustomerData) (d : String) :
    cs.foldl (fun sum c =>
      sum + cleanCurrencyString (getCellOpt c (some d)) * 12) 0
      = 12 * (cs.map (fun c => cleanCurrencyString (getCell c d))).sum := by
  rw [foldl_add_eq_sum]
  rw [show (fun c => cleanCurrencyString (getCellOpt c (some d)) * 12)
      = (fun c => cleanCurrencyString (getCell c d) * 12) from rfl]
  rw [sum_map_mul12]
  ring

theorem getIdx_last (l : List String) :
    getIdx l ((l.length : Int) - 1) = l.getLast? := by
  cases l with
  | nil => rfl
  | cons a t =>
    unfold getIdx
    rw [if_neg (by simp only [List.length_cons]; omega)]
    rw [show ((((a :: t).length : Int) - 1)).toNat = (a :: t).length - 1 from by
      simp only [List.length_cons]; omega]
    rw [List.getLast?_eq_getElem?, ← List.get?_eq_getElem?]

theorem getIdx_len_sub4 (l : List String) (h : 4 ≤ l.length) :
    getIdx l ((l.length : Int) - 4) = l.get? (l.length - 4) := by
  unfold getIdx
  rw [if_neg (by omega)]
  congr 1
  omega

theorem getIdx_len_sub4_neg (l : List String) (h : l.length < 4) :
    getIdx l ((l.length : Int) - 4) = none := by
  unfold getIdx
  rw [if_pos (by omega)]

theorem head?_mem {α : Type} {l : List α} {a : α} (h : l.head? = some a) :
    a ∈ l := by
  cases l with
  | nil => cases h
  | cons b t =>
    cases h
    exact List.mem_cons_self _ _

theorem getLast?_mem {α : Type} {l : List α} {a : α}
    (h : l.getLast? = some a) : a ∈ l := by
  rw [← List.head?_reverse] at h
  exact List.mem_reverse.mp (head?_mem h)

theorem jsOrString_axis (data : List CustomerData) (o : Option String)
    (d : String) (ho : ∀ s, o = some s → s ∈ axisOf data) :
    jsOrString o d = o.getD d := by
  cases o with
  | none => rfl
  | some s =>
    have hne : s ≠ "" := isDateKey_ne_empty (axisOf_isDateKey data (ho s rfl))
    simp [jsOrString, hne]

theorem clean_jsOr_zero (v : CellValue) :
    cleanCurrencyString (jsOr v (CellValue.str "0")) = cleanCurrencyString v := by
  cases v with
  | undef => with_unfolding_all decide
  | num q =>
    by_cases hq : q = 0
    · subst hq
      with_unfolding_all decide
    · rw [jsOr, if_neg (by simp [jsFalsy, hq])]
  | str s =>
    by_cases hs : s = ""
    · subst hs
      with_unfolding_all decide
    · rw [jsOr, if_neg (by simp [jsFalsy, hs])]

theorem mkSummary_currentMrr (axis : List String) (lm lqm : Option String)
    (c : CustomerData) : (mkSummary axis lm lqm c).currentMrr =
    cleanCurrencyString (getCellOpt c lm) := rfl

theorem mkSummary_lastQuarterMrr (axis : List String) (lm lqm : Option String)
    (c : CustomerData) : (mkSummary axis lm lqm c).lastQuarterMrr =
    cleanCurrencyString (getCellOpt c lqm) := rfl

theorem mkSummary_status (axis : List String) (lm lqm : Option String)
    (c : CustomerData) : (mkSummary axis lm lqm c).status =
    (if 0 < cleanCurrencyString (getCellOpt c lm) then "Active"
     else "Churned") := rfl

theorem mkSummary_startDate (axis : List String) (lm lqm : Option String)
    (c : CustomerData) : (mkSummary axis lm lqm c).startDate =
    jsOrString (axis.find?
      (fun d => decide (0 < cleanCurrencyString (getCell c d)))) "N/A" := rfl

theorem mkSummary_endDate (axis : List String) (lm lqm : Option String)
    (c : CustomerData) : (mkSummary axis lm lqm c).endDate =
    (if 0 < cleanCurrencyString (getCellOpt c lm) then "--"
     else jsOrString (axis.reverse.find?
       (fun d => decide (0 < cleanCurrencyString (getCell c d)))) "N/A") := rfl

theorem mkSummary_ltv (axis : List String) (lm lqm : Option String)
    (c : CustomerData) : (mkSummary axis lm lqm c).ltv =
    axis.foldl (fun sum d =>
      sum + cleanCurrencyString (jsOr (getCell c d) (CellValue.str "0"))) 0 := rfl

theorem fmtYM_ne_empty (n : Nat) : fmtYM n ≠ "" := by
  intro h
  have h2 : natToDigits (n / 12) ++ '-' :: pad2digits (n % 12 + 1)
      = ([] : List Char) := congrArg String.data h
  rcases List.append_eq_nil.mp h2 with ⟨ha, -⟩
  exact natToDigits_ne_nil _ ha

theorem monthlyMetric_activeCustomers (cs : List CustomerData)
    (axis : List String) (i : Nat) (d : String) :
    (monthlyMetric cs axis i d).activeCustomers =
    (cs.filter (fun c => decide (0 < cleanCurrencyString (getCell c d)))).length := rfl

theorem addQuarterly_qmrr (customers : List CustomerData)
    (bm : List MetricsData) (metric : MetricsData)
    (hq : (parseYM metric.date).2 % 3 = 0) :
    (addQuarterly customers bm metric).quarterlyMrr = some metric.mrr := by
  simp only [addQuarterly]
  rw [if_pos hq]

theorem addQuarterly_qarr (customers : List CustomerData)
    (bm : List MetricsData) (metric : MetricsData)
    (hq : (parseYM metric.date).2 % 3 = 0) :
    (addQuarterly customers bm metric).quarterlyArr = some metric.arr := by
  simp only [addQuarterly]
  rw [if_pos hq]

theorem addQuarterly_qactive (customers : List CustomerData)
    (bm : List MetricsData) (metric : MetricsData)
    (hq : (parseYM metric.date).2 % 3 = 0) :
    (addQuarterly customers bm metric).quarterlyActiveCustomers =
    some ((customers.filter (fun c =>
      decide (0 < cleanCurrencyString (getCell c metric.date)))).length) := by
  simp only [addQuarterly]
  rw [if_pos hq]

theorem addQuarterly_qacv (customers : List CustomerData)
    (bm : List MetricsData) (metric : MetricsData)
    (hq : (parseYM metric.date).2 % 3 = 0) :
    (addQuarterly customers bm metric).quarterlyAcv =
    some (if (customers.filter (fun c =>
        decide (0 < cleanCurrencyString (getCell c metric.date)))).length = 0
      then 0
      else metric.arr / (((customers.filter (fun c =>
        decide (0 < cleanCurrencyString (getCell c metric.date)))).length : ℚ))) := by
  simp only [addQuarterly]
  rw [if_pos hq]

theorem addQuarterly_qgrowth (customers : List CustomerData)
    (bm : List MetricsData) (metric : MetricsData)
    (hq : (parseYM metric.date).2 % 3 = 0) :
    (addQuarterly customers bm metric).quarterlyGrowth = some
      (if prevQMrr bm (prevQuarterDateOf (parseYM metric.date).1
          (parseYM metric.date).2) = 0 then 0
       else ((metric.mrr - prevQMrr bm (prevQuarterDateOf
            (parseYM metric.date).1 (parseYM metric.date).2)) /
         prevQMrr bm (prevQuarterDateOf (parseYM metric.date).1
            (parseYM metric.date).2)) * 100) := by
  simp only [addQuarterly]
  rw [if_pos hq]

theorem addQuarterly_qnetnew (customers : List CustomerData)
    (bm : List MetricsData) (metric : MetricsData)
    (hq : (parseYM metric.date).2 % 3 = 0) :
    (addQuarterly customers bm metric).quarterlyNetNew = some
      ((metric.mrr - prevQMrr bm (prevQuarterDateOf
        (parseYM metric.date).1 (parseYM metric.date).2)) * 12) := by
  simp only [addQuarterly]
  rw [if_pos hq]

theorem addQuarterly_qnrr (customers : List CustomerData)
    (bm : List MetricsData) (metric : MetricsData)
    (hq : (parseYM metric.date).2 % 3 = 0) :
    (addQuarterly customers bm metric).quarterlyNrr = some
      (codeNrr customers (some (prevQuarterDateOf
        (parseYM metric.date).1 (parseYM metric.date).2)) metric.date) := by
  simp only [addQuarterly]
  rw [if_pos hq]

theorem jsRange_get?_zero (n : Int) (h : 0 < n) :
    (jsRange n).get? 0 = some 0 := by
  unfold jsRange
  rw [if_neg (by omega), List.get?_range (by omega)]

theorem jsRange_map_get?_zero {β : Type} (n : Int) (h : 0 < n)
    (f : Nat → β) : ((jsRange n).map f).get? 0 = some (f 0) := by
  rw [List.get?_map, jsRange_get?_zero n h, Option.map_some']

theorem cohortStep_none {dateColumns : List String} {c : CustomerData}
    (h : cohortKeyOf dateColumns c = none)
    (groups : List (String × List CustomerData)) :
    cohortStep dateColumns groups c = groups := by
  unfold cohortStep
  rw [h]

theorem cohortStep_some {dateColumns : List String} {c : CustomerData}
    {k : String} (h : cohortKeyOf dateColumns c = some k)
    (groups : List (String × List CustomerData)) :
    cohortStep dateColumns groups c = insertGroup groups k c := by
  unfold cohortStep
  rw [h]

theorem insertGroup_self (groups : List (String × List CustomerData))
    (k : String) (c : CustomerData) :
    ∃ grp ∈ insertGroup groups k c, grp.1 = k ∧ c ∈ grp.2 := by
  induction groups with
  | nil =>
    exact ⟨(k, [c]), List.mem_cons_self _ _, rfl, List.mem_cons_self _ _⟩
  | cons g rest ih =>
    rcases g with ⟨k2, cs⟩
    simp only [insertGroup]
    by_cases hk2 : (k2 == k) = true
    · rw [if_pos hk2]
      exact ⟨(k2, cs ++ [c]), List.mem_cons_self _ _,
        by simpa using hk2, by simp⟩
    · rw [if_neg hk2]
      rcases ih with ⟨grp, hmem, hgk, hgc⟩
      exact ⟨grp, List.mem_cons_of_mem _ hmem, hgk, hgc⟩

theorem insertGroup_preserve {k : String} {r : CustomerData}
    {grp : String × List CustomerData} (hk : grp.1 = k) (hr : r ∈ grp.2)
    (k2 : String) (c : CustomerData) :
    ∀ groups : List (String × List CustomerData), grp ∈ groups →
      ∃ grp2 ∈ insertGroup groups k2 c, grp2.1 = k ∧ r ∈ grp2.2 := by
  intro groups
  induction groups with
  | nil =>
    intro hmem
    cases hmem
  | cons g rest ih =>
    intro hmem
    rcases g with ⟨kg, cs⟩
    simp only [insertGroup]
    by_cases hkg : (kg == k2) = true
    · rw [if_pos hkg]
      rcases List.mem_cons.mp hmem with he | ht
      · refine ⟨(kg, cs ++ [c]), List.mem_cons_self _ _, ?_, ?_⟩
        · show kg = k
          rw [show kg = grp.1 from by rw [he]]
          exact hk
        · show r ∈ cs ++ [c]
          rw [List.mem_append]
          left
          rw [show cs = grp.2 from by rw [he]]
          exact hr
      · exact ⟨grp, List.mem_cons_of_mem _ ht, hk, hr⟩
    · rw [if_neg hkg]
      rcases List.mem_cons.mp hmem with he | ht
      · refine ⟨grp, ?_, hk, hr⟩
        rw [he]
        exact List.mem_cons_self _ _
      · rcases ih ht with ⟨grp2, hmem2, hk2e, hr2⟩
        exact ⟨grp2, List.mem_cons_of_mem _ hmem2, hk2e, hr2⟩

theorem buildCohortGroups_mem (axis : List String) (r : CustomerData)
    (k : String) (hk : cohortKeyOf axis r = some k) :
    ∀ (l : List CustomerData) (g0 : List (String × List CustomerData)),
      ((∃ grp ∈ g0, grp.1 = k ∧ r ∈ grp.2) ∨ r ∈ l) →
      ∃ grp ∈ l.foldl (cohortStep axis) g0, grp.1 = k ∧ r ∈ grp.2 := by
  intro l
  induction l with
  | nil =>
    intro g0 hd
    rcases hd with hg | hmem
    · simpa using hg
    · cases hmem
  | cons c t ih =>
    intro g0 hd
    rw [List.foldl_cons]
    rcases hd with ⟨grp, hmem, hgk, hgr⟩ | hmem
    · apply ih
      left
      rcases hck : cohortKeyOf axis c with _ | k2
      · rw [cohortStep_none hck]
        exact ⟨grp, hmem, hgk, hgr⟩
      · rw [cohortStep_some hck]
        exact insertGroup_preserve hgk hgr k2 c g0 hmem
    · rcases List.mem_cons.mp hmem with he | hmem2
      · apply ih
        left
        subst he
        rw [cohortStep_some hk]
        exact insertGroup_self g0 k r
      · apply ih
        right
        exact hmem2

theorem buildCohortGroups_mem_of (data : List CustomerData)
    (axis : List String) (r : CustomerData) (k : String) (hr : r ∈ data)
    (hk : cohortKeyOf axis r = some k) :
    ∃ grp ∈ buildCohortGroups data axis, grp.1 = k ∧ r ∈ grp.2 := by
  unfold buildCohortGroups
  exact buildCohortGroups_mem axis r k hk data [] (Or.inr hr)

theorem jsRange_get? (n : Int) (j : Nat) :
    (jsRange n).get? j = if (j : Int) < n then some j else none := by
  unfold jsRange
  by_cases h : n ≤ 0
  · rw [if_pos h, if_neg (by omega)]
    rfl
  · rw [if_neg h]
    by_cases hj : j < n.toNat
    · rw [List.get?_range hj, if_pos (by omega)]
    · rw [if_neg (by omega),
        List.get?_eq_none.mpr (by simp only [List.length_range]; omega)]

theorem cohortEntry_cohort (ly lm : Nat) (g : String × List CustomerData) :
    (cohortEntry ly lm g).cohort = g.1 := by
  simp only [cohortEntry]
  split
  · rfl
  · rfl

theorem cohortEntry_initialCustomers (ly lm : Nat)
    (g : String × List CustomerData) :
    (cohortEntry ly lm g).initialCustomers = g.2.length := by
  simp only [cohortEntry]
  split
  · rfl
  · rfl

theorem cohortEntry_initialRevenue (ly lm : Nat)
    (g : String × List CustomerData)
    (hnf : ¬(ly < (parseYM g.1).1 ∨
      ((parseYM g.1).1 = ly ∧ lm < (parseYM g.1).2))) :
    (cohortEntry ly lm g).initialRevenue =
      (g.2.map (fun c => cleanCurrencyString (getCell c g.1))).sum := by
  simp only [cohortEntry]
  rw [if_neg hnf]
  show g.2.foldl (fun sum c => sum + cleanCurrencyString (getCell c g.1)) 0 = _
  rw [foldl_add_eq_sum]
  simp

theorem cohortEntry_period (ly lm : Nat) (g : String × List CustomerData)
    (hnf : ¬(ly < (parseYM g.1).1 ∨
      ((parseYM g.1).1 = ly ∧ lm < (parseYM g.1).2)))
    (j : Nat) (p : CohortPeriod)
    (hp : (cohortEntry ly lm g).periods.get? j = some p) :
    p.retained = (g.2.filter (fun c =>
      decide (0 < cleanCurrencyString (jsOr (getCell c
        (periodKeyOf (parseYM g.1).1 (parseYM g.1).2 j))
        (CellValue.num 0))))).length ∧
    p.revenue = (g.2.map (fun c =>
      cleanCurrencyString (jsOr (getCell c
        (periodKeyOf (parseYM g.1).1 (parseYM g.1).2 j))
        (CellValue.num 0)))).sum := by
  simp only [cohortEntry] at hp
  rw [if_neg hnf] at hp
  dsimp only at hp
  rw [List.get?_map, jsRange_get?] at hp
  by_cases hj : ((j : Int) < ((ly : Int) - (((parseYM g.1).1 : Nat) : Int)) * 12 +
      ((lm : Int) - (((parseYM g.1).2 : Nat) : Int)) + 1)
  · rw [if_pos hj] at hp
    simp only [Option.map_some'] at hp
    have hp2 := (Option.some.inj hp).symm
    subst hp2
    refine ⟨rfl, ?_⟩
    show g.2.foldl (fun sum c => sum + cleanCurrencyString (jsOr (getCell c
      (periodKeyOf (parseYM g.1).1 (parseYM g.1).2 j)) (CellValue.num 0))) 0
      = _
    rw [foldl_add_eq_sum]
    simp
  · rw [if_neg hj] at hp
    simp at hp

/-! ### The claims -/

/-- C1: for every period-axis index i (whose month is the date of the
metric record), the monthly mrr equals the sum over all customers of the
normalized cell at that month, and arr equals exactly 12 times mrr. -/
theorem C1_mrr_arr (data : List CustomerData) (res : AnalysisResult)
    (h : calculateMetrics data = some res) (i : Nat) (m : MetricsData)
    (hm : res.metrics.get? i = some m) :
    (axisOf data).get? i = some m.date ∧
    m.mrr = ((filteredCustomers data).map
      (fun c => cleanCurrencyString (getCell c m.date))).sum ∧
    m.arr = 12 * m.mrr := by
  obtain ⟨hi, rfl⟩ := metrics_get_unpack h hm
  obtain ⟨hdate, hmrr, harr, -, -, -, -, -⟩ :=
    addQuarterly_preserves (filteredCustomers data) (baseMetrics data)
      (monthlyMetric (filteredCustomers data) (axisOf data) i
        ((axisOf data).getD i ""))
  rw [hdate, hmrr, harr, monthlyMetric_date, monthlyMetric_arr,
    monthlyMetric_mrr, foldl_add_eq_sum]
  refine ⟨get?_eq_some_getD _ i "" hi, by simp, by ring⟩

/-- C1 witness: the property at the concrete matrix exData, index 1. -/
theorem C1_witness :
    (axisOf exData).get? 1 = some (exMetric 1).date ∧
    (exMetric 1).mrr = ((filteredCustomers exData).map
      (fun c => cleanCurrencyString (getCell c (exMetric 1).date))).sum ∧
    (exMetric 1).arr = 12 * (exMetric 1).mrr :=
  C1_mrr_arr exData exRes (by with_unfolding_all decide) 1 (exMetric 1)
    (by with_unfolding_all decide)

/-- C2: for every period-axis index i at least 1, nrr is the spec's
reference-cohort ratio over the customers with positive normalized
revenue in the previous axis month, defaulting to 100 when the cohort's
reference sum is 0 (in particular when the cohort is empty); the names
of the customers are assumed unique, matching the data model. -/
theorem C2_nrr (data : List CustomerData) (res : AnalysisResult)
    (h : calculateMetrics data = some res)
    (hnd : ((filteredCustomers data).map (fun c => c.name)).Nodup)
    (i : Nat) (hi1 : 1 ≤ i) (m : MetricsData)
    (hm : res.metrics.get? i = some m) :
    m.nrr = some (specNrr (filteredCustomers data)
      (getIdx (axisOf data) ((i : Int) - 1)) m.date) := by
  obtain ⟨hi, rfl⟩ := metrics_get_unpack h hm
  obtain ⟨hdate, -, -, -, hnrr, -, -, -⟩ :=
    addQuarterly_preserves (filteredCustomers data) (baseMetrics data)
      (monthlyMetric (filteredCustomers data) (axisOf data) i
        ((axisOf data).getD i ""))
  rw [hnrr, hdate, monthlyMetric_date, monthlyMetric_nrr,
    if_pos (by omega : i > 0), codeNrr_eq_specNrr _ hnd]

/-- C2 witness: the property at the concrete matrix exData, index 1. -/
theorem C2_witness :
    (exMetric 1).nrr = some (specNrr (filteredCustomers exData)
      (getIdx (axisOf exData) (((1 : Nat) : Int) - 1)) (exMetric 1).date) :=
  C2_nrr exData exRes (by with_unfolding_all decide)
    (by with_unfolding_all decide) 1 (by omega) (exMetric 1)
    (by with_unfolding_all decide)

/-- C5 counterexample: at index 0 the computed netNewRevenue and nrr
fields carry the number 0 (they are not absent), and at index 1 the
growthRate field carries the number 0, contradicting the claim that
these fields are undefined there. -/
theorem C5_counterexample :
    ((exRes.metrics.get? 0).map (fun m => (m.netNewRevenue, m.nrr)))
      = some (some 0, some 0) ∧
    ((exRes.metrics.get? 1).map (fun m => m.growthRate)) = some (some 0) ∧
    ((exRes.metrics.get? 0).map (fun m => m.nrr)) ≠ some none := by
  refine ⟨?_, ?_, ?_⟩ <;> with_unfolding_all decide

/-- C5 (amended): missing comparison periods degrade to the number 0,
not to undefined: at index 0 netNewRevenue and nrr are the number 0, and
growthRate is the number 0 at every index below 3 (at indices 1 and 2
the month three positions back is missing, its revenue reads as 0, and
the zero-baseline guard yields 0). -/
theorem C5_degrade_amended (data : List CustomerData) (res : AnalysisResult)
    (h : calculateMetrics data = some res) :
    (∀ m : MetricsData, res.metrics.get? 0 = some m →
      m.netNewRevenue = some 0 ∧ m.nrr = some 0) ∧
    (∀ i, i < 3 → ∀ m : MetricsData, res.metrics.get? i = some m →
      m.growthRate = some 0) := by
  constructor
  · intro m hm
    obtain ⟨hi, rfl⟩ := metrics_get_unpack h hm
    obtain ⟨-, -, -, -, hnrr, hnet, -, -⟩ :=
      addQuarterly_preserves (filteredCustomers data) (baseMetrics data)
        (monthlyMetric (filteredCustomers data) (axisOf data) 0
          ((axisOf data).getD 0 ""))
    rw [hnrr, hnet]
    exact ⟨rfl, rfl⟩
  · intro i hi3 m hm
    obtain ⟨hi, rfl⟩ := metrics_get_unpack h hm
    obtain ⟨-, -, -, hgr, -, -, -, -⟩ :=
      addQuarterly_preserves (filteredCustomers data) (baseMetrics data)
        (monthlyMetric (filteredCustomers data) (axisOf data) i
          ((axisOf data).getD i ""))
    rw [hgr, monthlyMetric_growthRate]
    by_cases hz : i = 0
    · rw [if_neg (by omega)]
    · rw [if_pos (by omega : i > 0), getIdx_neg3 (axisOf data) i (by omega),
        foldl_none_mul12, if_pos rfl]

/-- C5 witness for the amended statement: the fields at exData. -/
theorem C5_witness :
    (exMetric 0).netNewRevenue = some 0 ∧ (exMetric 0).nrr = some 0 ∧
    (exMetric 1).growthRate = some 0 := by
  have h := C5_degrade_amended exData exRes (by with_unfolding_all decide)
  exact ⟨(h.1 (exMetric 0) (by with_unfolding_all decide)).1,
    (h.1 (exMetric 0) (by with_unfolding_all decide)).2,
    h.2 1 (by omega) (exMetric 1) (by with_unfolding_all decide)⟩

/-- C6: for every index i at least 3, the growth rate compares against
the month three positions back on the period axis, regardless of
calendar alignment: the reference ARR is 12 times the summed normalized
revenue at that month, the rate is the percentage change of arr against
it, and it degrades to 0 on a zero reference. -/
theorem C6_growth_rate (data : List CustomerData) (res : AnalysisResult)
    (h : calculateMetrics data = some res) (i : Nat) (hi3 : 3 ≤ i)
    (m : MetricsData) (hm : res.metrics.get? i = some m) (d3 : String)
    (hd3 : (axisOf data).get? (i - 3) = some d3) :
    m.growthRate = some
      (if 12 * ((filteredCustomers data).map
          (fun c => cleanCurrencyString (getCell c d3))).sum = 0 then 0
       else ((m.arr - 12 * ((filteredCustomers data).map
          (fun c => cleanCurrencyString (getCell c d3))).sum) /
         (12 * ((filteredCustomers data).map
          (fun c => cleanCurrencyString (getCell c d3))).sum)) * 100) := by
  obtain ⟨hi, rfl⟩ := metrics_get_unpack h hm
  obtain ⟨-, -, harr, hgr, -, -, -, -⟩ :=
    addQuarterly_preserves (filteredCustomers data) (baseMetrics data)
      (monthlyMetric (filteredCustomers data) (axisOf data) i
        ((axisOf data).getD i ""))
  rw [hgr, harr, monthlyMetric_arr, monthlyMetric_mrr,
    monthlyMetric_growthRate, if_pos (by omega : i > 0),
    getIdx_sub3 (axisOf data) i hi3, hd3, foldl_some_mul12]

/-- C6 witness: exData at index 3 compares against index 0. -/
theorem C6_witness :
    (exMetric 3).growthRate = some
      (if 12 * ((filteredCustomers exData).map
          (fun c => cleanCurrencyString (getCell c "2024-01"))).sum = 0 then 0
       else (((exMetric 3).arr - 12 * ((filteredCustomers exData).map
          (fun c => cleanCurrencyString (getCell c "2024-01"))).sum) /
         (12 * ((filteredCustomers exData).map
          (fun c => cleanCurrencyString (getCell c "2024-01"))).sum)) * 100) :=
  C6_growth_rate exData exRes (by with_unfolding_all decide) 3 (by omega)
    (exMetric 3) (by with_unfolding_all decide) "2024-01"
    (by with_unfolding_all decide)

/-- C8 counterexample: for the customer whose normalized revenue is -5
and then 0, the computed startDate and endDate are both "N/A" even
though a period-axis month with nonzero normalized revenue exists
(2024-01, normalized to -5): the source compares with > 0, not with
nonzero, and the two differ because negative amounts pass the
normalizer through. -/
theorem C8_counterexample :
    ((exResN.summaries.get? 0).map
      (fun s => (s.endDate, s.startDate, s.status, s.currentMrr)))
      = some ("N/A", "N/A", "Churned", 0) ∧
    "2024-01" ∈ axisOf exDataN ∧
    cleanCurrencyString (getCell rowN "2024-01") ≠ 0 := by
  refine ⟨?_, ?_, ?_⟩ <;> with_unfolding_all decide

/-- C8 (amended): for every summary index j with customer c, currentMrr
is the normalized cell at the last axis month; lastQuarterMrr is the
normalized cell at the month three before the end when the axis has at
least 4 entries and at the last month otherwise; status is "Active" on
positive currentMrr and "Churned" otherwise; startDate is the first
axis month with positive normalized revenue, or "N/A" if none; endDate
is "--" while active and otherwise the last axis month with positive
normalized revenue, or "N/A" if none; and ltv is the sum of the
normalized cells across the whole axis.  "Positive" replaces the
claim's "nonzero" in startDate and endDate. -/
theorem C8_summary_amended (data : List CustomerData) (res : AnalysisResult)
    (h : calculateMetrics data = some res) (j : Nat) (s : CustomerSummary)
    (hs : res.summaries.get? j = some s) :
    ∃ c, (filteredCustomers data).get? j = some c ∧
      s.currentMrr = cleanCurrencyString (getCellOpt c (axisOf data).getLast?) ∧
      s.lastQuarterMrr = cleanCurrencyString (getCellOpt c
        (if 4 ≤ (axisOf data).length
         then (axisOf data).get? ((axisOf data).length - 4)
         else (axisOf data).getLast?)) ∧
      s.status = (if 0 < s.currentMrr then "Active" else "Churned") ∧
      s.startDate = (((axisOf data).filter
        (fun d => decide (0 < cleanCurrencyString (getCell c d)))).head?).getD "N/A" ∧
      s.endDate = (if 0 < s.currentMrr then "--"
        else (((axisOf data).filter
          (fun d => decide (0 < cleanCurrencyString (getCell c d)))).getLast?).getD "N/A") ∧
      s.ltv = ((axisOf data).map (fun d => cleanCurrencyString (getCell c d))).sum := by
  obtain ⟨-, hsum, -, -, -⟩ := calculateMetrics_some h
  rw [hsum] at hs
  simp only [summariesOf, List.get?_map] at hs
  rcases hc : (filteredCustomers data).get? j with _ | c
  · rw [hc] at hs
    cases hs
  · rw [hc] at hs
    simp only [Option.map_some'] at hs
    have hs2 := Option.some.inj hs
    subst hs2
    refine ⟨c, rfl, ?_, ?_, ?_, ?_, ?_, ?_⟩
    · rw [mkSummary_currentMrr, getIdx_last]
    · rw [mkSummary_lastQuarterMrr]
      by_cases h4 : 4 ≤ (axisOf data).length
      · rw [if_pos h4, getIdx_len_sub4 _ h4,
          get?_eq_some_getD (axisOf data) ((axisOf data).length - 4) ""
            (by omega)]
      · rw [if_neg h4, getIdx_len_sub4_neg _ (by omega), getIdx_last]
    · rw [mkSummary_status, mkSummary_currentMrr, getIdx_last]
    · rw [mkSummary_startDate, find?_eq_filter_head?]
      exact jsOrString_axis data _ _ (fun x hx =>
        List.mem_of_mem_filter (head?_mem hx))
    · rw [mkSummary_endDate, mkSummary_currentMrr, getIdx_last]
      by_cases hpos : 0 < cleanCurrencyString (getCellOpt c (axisOf data).getLast?)
      · rw [if_pos hpos, if_pos hpos]
      · rw [if_neg hpos, if_neg hpos, reverse_find?_eq_filter_getLast?]
        exact jsOrString_axis data _ _ (fun x hx =>
          List.mem_of_mem_filter (getLast?_mem hx))
    · rw [mkSummary_ltv, foldl_add_eq_sum]
      simp only [clean_jsOr_zero, zero_add]

/-- C8 witness: the amended property at exData, summary index 0. -/
theorem C8_witness :
    ∃ c, (filteredCustomers exData).get? 0 = some c ∧
      (exSummary 0).currentMrr =
        cleanCurrencyString (getCellOpt c (axisOf exData).getLast?) ∧
      (exSummary 0).lastQuarterMrr = cleanCurrencyString (getCellOpt c
        (if 4 ≤ (axisOf exData).length
         then (axisOf exData).get? ((axisOf exData).length - 4)
         else (axisOf exData).getLast?)) ∧
      (exSummary 0).status =
        (if 0 < (exSummary 0).currentMrr then "Active" else "Churned") ∧
      (exSummary 0).startDate = (((axisOf exData).filter
        (fun d => decide (0 < cleanCurrencyString (getCell c d)))).head?).getD "N/A" ∧
      (exSummary 0).endDate = (if 0 < (exSummary 0).currentMrr then "--"
        else (((axisOf exData).filter
          (fun d => decide (0 < cleanCurrencyString (getCell c d)))).getLast?).getD "N/A") ∧
      (exSummary 0).ltv = ((axisOf exData).map
        (fun d => cleanCurrencyString (getCell c d))).sum :=
  C8_summary_amended exData exRes (by with_unfolding_all decide) 0
    (exSummary 0) (by with_unfolding_all decide)

/-- C9: for every cohort whose acquisition month (as parsed from the
cohort key, with a month field of at most 12) is not after the latest
period-axis month, relative period 0 exists and its revenueRate is
exactly 100, with no condition on the cohort's initial revenue. -/
theorem C9_period0_rate (data : List CustomerData) (res : AnalysisResult)
    (h : calculateMetrics data = some res) (lat : String)
    (hlat : (axisOf data).getLast? = some lat)
    (g : Nat) (cd : CohortData) (hg : res.cohorts.get? g = some cd)
    (hm12 : (parseYM cd.cohort).2 ≤ 12)
    (hnf : ¬((parseYM lat).1 < (parseYM cd.cohort).1 ∨
      ((parseYM cd.cohort).1 = (parseYM lat).1 ∧
        (parseYM lat).2 < (parseYM cd.cohort).2))) :
    ∃ p, cd.periods.get? 0 = some p ∧ p.revenueRate = 100 := by
  obtain ⟨-, -, hco, -, -⟩ := calculateMetrics_some h
  simp only [calculateCohortData, hlat] at hco
  have hr := Option.some.inj hco
  rw [← hr, List.get?_map] at hg
  rcases hG : (buildCohortGroups data (axisOf data)).get? g with _ | grp
  · rw [hG] at hg
    cases hg
  · rw [hG] at hg
    simp only [Option.map_some'] at hg
    have hg2 := Option.some.inj hg
    simp only [cohortEntry] at hg2
    have hcoh : cd.cohort = grp.1 := by
      rw [← hg2]
      by_cases hc2 : ((parseYM lat).1 < (parseYM grp.1).1 ∨
        ((parseYM grp.1).1 = (parseYM lat).1 ∧
          (parseYM lat).2 < (parseYM grp.1).2))
      · rw [if_pos hc2]
      · rw [if_neg hc2]
    rw [hcoh] at hm12 hnf
    rw [← hg2, if_neg hnf]
    exact ⟨_, jsRange_map_get?_zero
      (((((parseYM lat).1 : Int) - ((parseYM grp.1).1 : Int)) * 12 +
        (((parseYM lat).2 : Int) - ((parseYM grp.1).2 : Int))) + 1)
      (by omega) _, rfl⟩

/-- C9 witness: the cohort of the customer whose only column is
"0024-01"; its rebuilt cohort key "24-01" matches no column, so the
initial revenue is 0, yet period 0 exists with revenueRate 100. -/
theorem C9_witness :
    (∃ p, exCohortZ.periods.get? 0 = some p ∧ p.revenueRate = 100) ∧
    exCohortZ.initialRevenue = 0 :=
  ⟨C9_period0_rate exDataZ exResZ (by with_unfolding_all decide) "0024-01"
    (by with_unfolding_all decide) 0 exCohortZ (by with_unfolding_all decide)
    (by with_unfolding_all decide) (by with_unfolding_all decide),
   by with_unfolding_all decide⟩

/-- C10 counterexample: a Totals row whose only normalized revenue is
nonzero but negative joins no cohort, because the cohort builder keys a
row by its first month with revenue strictly greater than 0
(App.tsx 627): here the excluded Totals row has nonzero normalized
revenue in the period-axis month 2024-01, yet its cohort key is none
and the whole cohort output counts only the remaining row D (size 1,
initial revenue 7, one period with retained 1 and revenue 7), so the
claim is false as worded with "nonzero". -/
theorem C10_counterexample :
    cleanCurrencyString (getCell rowTotalsNeg "2024-01") ≠ 0 ∧
    rowFilter rowTotalsNeg = false ∧
    "2024-01" ∈ axisOf exDataTN ∧
    cohortKeyOf (axisOf exDataTN) rowTotalsNeg = none ∧
    (exResTN.cohorts.map (fun cd => (cd.cohort, cd.initialCustomers,
      cd.initialRevenue, cd.periods.map (fun p => (p.retained, p.revenue))))
      = [("2024-01", 1, 7, [(1, 7)])]) := by
  refine ⟨?_, ?_, ?_, ?_, ?_⟩ <;> with_unfolding_all decide

/-- C10 (amended): for every input row that fails the row filter yet
has positive normalized revenue in some period-axis month (so the
cohort builder assigns it the key k), the row is absent from the
filtered list, every monthly mrr and activeCustomers is computed over
the filtered list only, no summary carries the row's identity, and the
row is a member of a cohort group with key k whose record counts it in
initialCustomers and, when the cohort is not in the future, sums it
into initialRevenue and into every period's retained count and
revenue; the filtered list equals the input exactly when every row
passes the filter.  "Positive" replaces the claim's "nonzero". -/
theorem C10_cohort_amended (data : List CustomerData) (res : AnalysisResult)
    (h : calculateMetrics data = some res)
    (lat : String) (hlat : (axisOf data).getLast? = some lat)
    (r : CustomerData) (hr : r ∈ data) (hrf : rowFilter r = false)
    (k : String) (hk : cohortKeyOf (axisOf data) r = some k) :
    r ∉ filteredCustomers data ∧
    (∀ i mv, res.metrics.get? i = some mv →
      mv.mrr = ((filteredCustomers data).map
        (fun c => cleanCurrencyString (getCell c mv.date))).sum ∧
      mv.activeCustomers = ((filteredCustomers data).filter
        (fun c => decide (0 < cleanCurrencyString (getCell c mv.date)))).length) ∧
    (∀ s ∈ res.summaries, s.customer ≠ r.name) ∧
    (∃ grp ∈ buildCohortGroups data (axisOf data), grp.1 = k ∧ r ∈ grp.2 ∧
      ∃ cd ∈ res.cohorts, cd.cohort = k ∧
        cd.initialCustomers = grp.2.length ∧
        (¬((parseYM lat).1 < (parseYM k).1 ∨
            ((parseYM k).1 = (parseYM lat).1 ∧
              (parseYM lat).2 < (parseYM k).2)) →
          cd.initialRevenue = (grp.2.map
            (fun c => cleanCurrencyString (getCell c k))).sum ∧
          ∀ j p, cd.periods.get? j = some p →
            p.retained = (grp.2.filter (fun c =>
              decide (0 < cleanCurrencyString (jsOr (getCell c
                (periodKeyOf (parseYM k).1 (parseYM k).2 j))
                (CellValue.num 0))))).length ∧
            p.revenue = (grp.2.map (fun c =>
              cleanCurrencyString (jsOr (getCell c
                (periodKeyOf (parseYM k).1 (parseYM k).2 j))
                (CellValue.num 0)))).sum)) ∧
    (filteredCustomers data = data ↔ ∀ x ∈ data, rowFilter x = true) := by
  obtain ⟨hmet, hsum, hco, -, -⟩ := calculateMetrics_some h
  refine ⟨?_, ?_, ?_, ?_, List.filter_eq_self⟩
  · intro hmem
    have hf := (List.mem_filter.mp hmem).2
    rw [hrf] at hf
    cases hf
  · intro i mv hmv
    obtain ⟨hi, hmeq⟩ := metrics_get_unpack h hmv
    subst hmeq
    obtain ⟨hdate, hmrr, -, -, -, -, -, hpact⟩ :=
      addQuarterly_preserves (filteredCustomers data) (baseMetrics data)
        (monthlyMetric (filteredCustomers data) (axisOf data) i
          ((axisOf data).getD i ""))
    constructor
    · rw [hmrr, hdate, monthlyMetric_date, monthlyMetric_mrr,
        foldl_add_eq_sum]
      simp
    · rw [hpact, hdate, monthlyMetric_date, monthlyMetric_activeCustomers]
  · intro s hs hname
    rw [hsum] at hs
    simp only [summariesOf, List.mem_map] at hs
    rcases hs with ⟨c, hc, rfl⟩
    have hcn : c.name = r.name := hname
    have hcf : rowFilter c = true := (List.mem_filter.mp hc).2
    rw [show rowFilter c = rowFilter r from by unfold rowFilter; rw [hcn]] at hcf
    rw [hrf] at hcf
    cases hcf
  · obtain ⟨grp, hgmem, hgk, hgr⟩ :=
      buildCohortGroups_mem_of data (axisOf data) r k hr hk
    simp only [calculateCohortData, hlat] at hco
    have hres : res.cohorts = (buildCohortGroups data (axisOf data)).map
        (cohortEntry (parseYM lat).1 (parseYM lat).2) :=
      (Option.some.inj hco).symm
    refine ⟨grp, hgmem, hgk, hgr,
      cohortEntry (parseYM lat).1 (parseYM lat).2 grp, ?_, ?_, ?_, ?_⟩
    · rw [hres]
      exact List.mem_map_of_mem _ hgmem
    · rw [cohortEntry_cohort, hgk]
    · rw [cohortEntry_initialCustomers]
    · intro hnf
      have hnf2 : ¬((parseYM lat).1 < (parseYM grp.1).1 ∨
          ((parseYM grp.1).1 = (parseYM lat).1 ∧
            (parseYM lat).2 < (parseYM grp.1).2)) := by
        rw [hgk]
        exact hnf
      constructor
      · rw [cohortEntry_initialRevenue _ _ _ hnf2, hgk]
      · intro j p hp
        have hpp := cohortEntry_period (parseYM lat).1 (parseYM lat).2
          grp hnf2 j p hp
        rw [hgk] at hpp
        exact hpp

/-- C10 witness: the amended property at the concrete input [D, Totals],
with the Totals row carrying positive revenue 9 in 2024-01: it joins
the 2024-01 cohort group while staying out of the filtered list. -/
theorem C10_witness :
    rowTotals ∉ filteredCustomers exDataT ∧
    (∀ i mv, exResT.metrics.get? i = some mv →
      mv.mrr = ((filteredCustomers exDataT).map
        (fun c => cleanCurrencyString (getCell c mv.date))).sum ∧
      mv.activeCustomers = ((filteredCustomers exDataT).filter
        (fun c => decide (0 < cleanCurrencyString (getCell c mv.date)))).length) ∧
    (∀ s ∈ exResT.summaries, s.customer ≠ rowTotals.name) ∧
    (∃ grp ∈ buildCohortGroups exDataT (axisOf exDataT),
      grp.1 = "2024-01" ∧ rowTotals ∈ grp.2 ∧
      ∃ cd ∈ exResT.cohorts, cd.cohort = "2024-01" ∧
        cd.initialCustomers = grp.2.length ∧
        (¬((parseYM "2024-01").1 < (parseYM "2024-01").1 ∨
            ((parseYM "2024-01").1 = (parseYM "2024-01").1 ∧
              (parseYM "2024-01").2 < (parseYM "2024-01").2)) →
          cd.initialRevenue = (grp.2.map
            (fun c => cleanCurrencyString (getCell c "2024-01"))).sum ∧
          ∀ j p, cd.periods.get? j = some p →
            p.retained = (grp.2.filter (fun c =>
              decide (0 < cleanCurrencyString (jsOr (getCell c
                (periodKeyOf (parseYM "2024-01").1 (parseYM "2024-01").2 j))
                (CellValue.num 0))))).length ∧
            p.revenue = (grp.2.map (fun c =>
              cleanCurrencyString (jsOr (getCell c
                (periodKeyOf (parseYM "2024-01").1 (parseYM "2024-01").2 j))
                (CellValue.num 0)))).sum)) ∧
    (filteredCustomers exDataT = exDataT ↔ ∀ x ∈ exDataT, rowFilter x = true) :=
  C10_cohort_amended exDataT exResT (by with_unfolding_all decide) "2024-01"
    (by with_unfolding_all decide) rowTotals (by with_unfolding_all decide)
    (by with_unfolding_all decide) "2024-01" (by with_unfolding_all decide)

/-- C7: on a contiguous month axis (entry k is the calendar month
b + k, with b at least year 1), quarterly fields are attached exactly
at the indices whose month-of-year is a multiple of 3, and there
quarterly mrr, arr, acv and activeCustomers equal the month's own
monthly values, quarterly growth and net-new compare against the mrr of
the metric three axis positions back (0 when that index is absent,
growth degrading to 0 on a 0 baseline and net-new scaled by 12), and
quarterly NRR is the reference-cohort ratio against the calendar month
three months prior, defaulting to 100 on a zero reference sum. -/
theorem C7_quarterly (data : List CustomerData) (res : AnalysisResult)
    (h : calculateMetrics data = some res)
    (hnd : ((filteredCustomers data).map (fun c => c.name)).Nodup)
    (T b : Nat) (hb : 12 ≤ b)
    (haxis : axisOf data = (List.range T).map (fun k => fmtYM (b + k)))
    (i : Nat) (m : MetricsData) (hm : res.metrics.get? i = some m) :
    m.date = fmtYM (b + i) ∧
    (((b + i) % 12 + 1) % 3 ≠ 0 →
      m.quarterlyMrr = none ∧ m.quarterlyArr = none ∧
      m.quarterlyGrowth = none ∧ m.quarterlyNrr = none ∧
      m.quarterlyNetNew = none ∧ m.quarterlyAcv = none ∧
      m.quarterlyActiveCustomers = none) ∧
    (((b + i) % 12 + 1) % 3 = 0 →
      m.quarterlyMrr = some m.mrr ∧
      m.quarterlyArr = some m.arr ∧
      m.quarterlyAcv = some m.acv ∧
      m.quarterlyActiveCustomers = some m.activeCustomers ∧
      m.quarterlyGrowth = some
        (if (if 3 ≤ i then ((res.metrics.get? (i - 3)).map
              (fun mm => mm.mrr)).getD 0 else 0) = 0 then 0
         else ((m.mrr - (if 3 ≤ i then ((res.metrics.get? (i - 3)).map
                (fun mm => mm.mrr)).getD 0 else 0)) /
           (if 3 ≤ i then ((res.metrics.get? (i - 3)).map
              (fun mm => mm.mrr)).getD 0 else 0)) * 100) ∧
      m.quarterlyNetNew = some
        ((m.mrr - (if 3 ≤ i then ((res.metrics.get? (i - 3)).map
            (fun mm => mm.mrr)).getD 0 else 0)) * 12) ∧
      m.quarterlyNrr = some (specNrr (filteredCustomers data)
        (some (fmtYM (b + i - 3))) m.date)) := by
  obtain ⟨hmet, -, -, -, -⟩ := calculateMetrics_some h
  obtain ⟨hi, hmeq⟩ := metrics_get_unpack h hm
  subst hmeq
  have hT : (axisOf data).length = T := by rw [haxis]; simp
  have hiT : i < T := by omega
  have hgetD : ∀ k, k < T → (axisOf data).getD k "" = fmtYM (b + k) := by
    intro k hk
    rw [haxis, List.getD_eq_get?, List.get?_map, List.get?_range hk,
      Option.map_some', Option.getD_some]
  have hgetD2 : ∀ k, T ≤ k → (axisOf data).getD k "" = "" := by
    intro k hk
    rw [haxis, List.getD_eq_get?, List.get?_eq_none.mpr (by simpa using hk),
      Option.getD_none]
  have hd : (axisOf data).getD i "" = fmtYM (b + i) := hgetD i hiT
  have hdate1 : (monthlyMetric (filteredCustomers data) (axisOf data) i
      ((axisOf data).getD i "")).date = fmtYM (b + i) := by
    rw [monthlyMetric_date, hd]
  obtain ⟨hpdate, hpmrr, hparr, -, -, -, hpacv, hpact⟩ :=
    addQuarterly_preserves (filteredCustomers data) (baseMetrics data)
      (monthlyMetric (filteredCustomers data) (axisOf data) i
        ((axisOf data).getD i ""))
  refine ⟨by rw [hpdate, hdate1], ?_, ?_⟩
  · intro hnq
    have hnq2 : ¬ (parseYM (monthlyMetric (filteredCustomers data)
        (axisOf data) i ((axisOf data).getD i "")).date).2 % 3 = 0 := by
      rw [hdate1, parseYM_fmtYM]
      exact hnq
    rw [addQuarterly_not_qe _ _ _ hnq2]
    exact ⟨rfl, rfl, rfl, rfl, rfl, rfl, rfl⟩
  · intro hq
    have hq2 : (parseYM (monthlyMetric (filteredCustomers data)
        (axisOf data) i ((axisOf data).getD i "")).date).2 % 3 = 0 := by
      rw [hdate1, parseYM_fmtYM]
      exact hq
    have hpd : prevQuarterDateOf
        (parseYM (monthlyMetric (filteredCustomers data) (axisOf data) i
          ((axisOf data).getD i "")).date).1
        (parseYM (monthlyMetric (filteredCustomers data) (axisOf data) i
          ((axisOf data).getD i "")).date).2 = fmtYM (b + i - 3) := by
      rw [hdate1, parseYM_fmtYM]
      exact prevQuarterDateOf_fmtYM (b + i) (by omega) hq
    have hfind : prevQMrr (baseMetrics data) (fmtYM (b + i - 3)) =
        (if 3 ≤ i then ((res.metrics.get? (i - 3)).map
          (fun mm => mm.mrr)).getD 0 else 0) := by
      unfold prevQMrr baseMetrics
      rw [hT]
      by_cases h3 : 3 ≤ i
      · have hp : ∀ k, ((monthlyMetric (filteredCustomers data)
            (axisOf data) k ((axisOf data).getD k "")).date
              == fmtYM (b + i - 3)) = decide (k = i - 3) := by
          intro k
          rw [monthlyMetric_date]
          by_cases hk : k < T
          · rw [hgetD k hk]
            by_cases hke : k = i - 3
            · subst hke
              rw [show b + (i - 3) = b + i - 3 from by omega]
              simp
            · have hne : fmtYM (b + k) ≠ fmtYM (b + i - 3) := by
                intro hfe
                have := fmtYM_inj hfe
                omega
              rw [beq_eq_false_iff_ne.mpr hne, decide_eq_false hke]
          · rw [hgetD2 k (by omega)]
            have hne : ("" : String) ≠ fmtYM (b + i - 3) :=
              fun hfe => fmtYM_ne_empty _ hfe.symm
            rw [beq_eq_false_iff_ne.mpr hne,
              decide_eq_false (by omega : ¬ k = i - 3)]
        rw [if_pos h3, find?_map_range _ _ T (i - 3) hp, if_pos (by omega)]
        rw [hmet, fullMetrics_get?, baseMetrics_get? data (i - 3) (by omega)]
        simp only [Option.map_some', Option.getD_some]
        obtain ⟨-, hpm, -, -, -, -, -, -⟩ :=
          addQuarterly_preserves (filteredCustomers data) (baseMetrics data)
            (monthlyMetric (filteredCustomers data) (axisOf data) (i - 3)
              ((axisOf data).getD (i - 3) ""))
        rw [hpm]
      · rw [if_neg h3, List.find?_eq_none.mpr ?none]
        case none =>
          intro x hx
          rcases List.mem_map.mp hx with ⟨k, hkmem, rfl⟩
          have hk : k < T := List.mem_range.mp hkmem
          rw [monthlyMetric_date, hgetD k hk, beq_iff_eq]
          intro hfe
          have := fmtYM_inj hfe
          omega
    refine ⟨?_, ?_, ?_, ?_, ?_, ?_, ?_⟩
    · rw [addQuarterly_qmrr _ _ _ hq2, hpmrr]
    · rw [addQuarterly_qarr _ _ _ hq2, hparr]
    · rw [addQuarterly_qacv _ _ _ hq2, hpacv, monthlyMetric_date]
      rfl
    · rw [addQuarterly_qactive _ _ _ hq2, hpact,
        monthlyMetric_activeCustomers, monthlyMetric_date]
    · rw [addQuarterly_qgrowth _ _ _ hq2, hpd, hfind, hpmrr]
    · rw [addQuarterly_qnetnew _ _ _ hq2, hpd, hfind, hpmrr]
    · rw [addQuarterly_qnrr _ _ _ hq2, hpd, codeNrr_eq_specNrr _ hnd, hpdate]

/-- C7 witness: the property at exData with b = 24288 (January 2024),
T = 6 and i = 5 (June 2024, a quarter end with an in-range baseline). -/
theorem C7_witness :
    (exMetric 5).date = fmtYM (24288 + 5) ∧
    (((24288 + 5) % 12 + 1) % 3 ≠ 0 →
      (exMetric 5).quarterlyMrr = none ∧ (exMetric 5).quarterlyArr = none ∧
      (exMetric 5).quarterlyGrowth = none ∧ (exMetric 5).quarterlyNrr = none ∧
      (exMetric 5).quarterlyNetNew = none ∧ (exMetric 5).quarterlyAcv = none ∧
      (exMetric 5).quarterlyActiveCustomers = none) ∧
    (((24288 + 5) % 12 + 1) % 3 = 0 →
      (exMetric 5).quarterlyMrr = some (exMetric 5).mrr ∧
      (exMetric 5).quarterlyArr = some (exMetric 5).arr ∧
      (exMetric 5).quarterlyAcv = some (exMetric 5).acv ∧
      (exMetric 5).quarterlyActiveCustomers = some (exMetric 5).activeCustomers ∧
      (exMetric 5).quarterlyGrowth = some
        (if (if 3 ≤ 5 then ((exRes.metrics.get? (5 - 3)).map
              (fun mm => mm.mrr)).getD 0 else 0) = 0 then 0
         else (((exMetric 5).mrr - (if 3 ≤ 5 then ((exRes.metrics.get? (5 - 3)).map
                (fun mm => mm.mrr)).getD 0 else 0)) /
           (if 3 ≤ 5 then ((exRes.metrics.get? (5 - 3)).map
              (fun mm => mm.mrr)).getD 0 else 0)) * 100) ∧
      (exMetric 5).quarterlyNetNew = some
        (((exMetric 5).mrr - (if 3 ≤ 5 then ((exRes.metrics.get? (5 - 3)).map
            (fun mm => mm.mrr)).getD 0 else 0)) * 12) ∧
      (exMetric 5).quarterlyNrr = some (specNrr (filteredCustomers exData)
        (some (fmtYM (24288 + 5 - 3))) (exMetric 5).date)) :=
  C7_quarterly exData exRes (by with_unfolding_all decide)
    (by with_unfolding_all decide) 6 24288 (by omega)
    (by with_unfolding_all decide) 5 (exMetric 5)
    (by with_unfolding_all decide)

end CustomerAnalysis
